import Mathlib

/-!
Shallow embedding of the library circulation backend (`Admin_page1.py`):
the transaction lifecycle / reconciliation engine (`run_auto_sync_engine`),
the reservation/borrow state machine (`api_reserve`, `api_process_trans`),
the password-reset finalization (`api_finalize_reset`) and the monthly
leaderboard top-books aggregation (`_build_monthly_leaderboard_payload`).

Python `datetime` values are modelled by the `LBAS.DT` structure; date
strings are parsed by executable functions that mirror `datetime.strptime`
for the three formats the source uses.  Collections persisted through
`get_db`/`save_db` are modelled as in-memory lists threaded through each
operation; an uncaught Python exception (e.g. `ValueError` from the
unguarded `strptime` in the ticket sweep) is modelled as `Except.error ()`,
in which case nothing is persisted, matching the fact that the exception
fires before any `save_db` call of the failing request.
-/

namespace LBAS

/-- Calendar timestamp mirroring Python `datetime` (second precision, which is
all the source ever uses). -/
structure DT where
  year : Nat
  month : Nat
  day : Nat
  hour : Nat
  minute : Nat
  second : Nat
deriving DecidableEq, Repr

/-- Strict `<` on timestamps, lexicographic field by field, mirroring Python
`datetime` comparison. -/
def DT.ltb (a b : DT) : Bool :=
  if a.year < b.year then true else if b.year < a.year then false
  else if a.month < b.month then true else if b.month < a.month then false
  else if a.day < b.day then true else if b.day < a.day then false
  else if a.hour < b.hour then true else if b.hour < a.hour then false
  else if a.minute < b.minute then true else if b.minute < a.minute then false
  else decide (a.second < b.second)

/-- Strict `<` on the date components only, mirroring Python
`datetime.date()` comparison. -/
def DT.dateLtb (a b : DT) : Bool :=
  if a.year < b.year then true else if b.year < a.year then false
  else if a.month < b.month then true else if b.month < a.month then false
  else decide (a.day < b.day)

/-- Leap-year test used by Python's calendar validation. -/
def isLeap (y : Nat) : Bool :=
  y % 4 == 0 && (y % 100 != 0 || y % 400 == 0)

/-- Number of days in a month, as validated by the `datetime` constructor. -/
def daysInMonth (y m : Nat) : Nat :=
  if m == 2 then (if isLeap y then 29 else 28)
  else if m == 4 || m == 6 || m == 9 || m == 11 then 30
  else 31

/-- Addition of 30 minutes to a timestamp (`now + timedelta(minutes=30)`),
with carry into hours, days, months and years. -/
def DT.addMinutes30 (d : DT) : DT :=
  let tot := d.hour * 60 + d.minute + 30
  if tot < 1440 then
    { d with hour := tot / 60, minute := tot % 60 }
  else
    let h := (tot - 1440) / 60
    let mi := (tot - 1440) % 60
    if d.day < daysInMonth d.year d.month then
      { d with day := d.day + 1, hour := h, minute := mi }
    else if d.month < 12 then
      { d with month := d.month + 1, day := 1, hour := h, minute := mi }
    else
      { year := d.year + 1, month := 1, day := 1, hour := h, minute := mi,
        second := d.second }

/-- Character-level whitespace test matching what `str.strip()` removes for
the ASCII inputs this system handles. -/
def isWs (c : Char) : Bool := c == ' ' || c == '\t' || c == '\n' || c == '\r'

/-- Python `str.strip()` on the underlying character list. -/
def stripChars (cs : List Char) : List Char :=
  ((cs.dropWhile isWs).reverse.dropWhile isWs).reverse

/-- Python `str.strip()`. -/
def pyStrip (s : String) : String := String.mk (stripChars s.data)

/-- Python `str.lower()` (ASCII range, which covers every identifier and
status literal the source manipulates). -/
def pyLower (s : String) : String := String.mk (s.data.map Char.toLower)

/-- Normalization applied by the HTTP handlers to a request-supplied
`school_id`: `str(x).strip().lower()`. -/
def normId (s : String) : String := pyLower (pyStrip s)

/-- Splitting a character list on a single separator character, mirroring
`str.split(sep)` for the one-character separators used by the date parsers. -/
def splitOnChar (sep : Char) : List Char → List (List Char)
  | [] => [[]]
  | c :: cs =>
    let rest := splitOnChar sep cs
    if c == sep then
      [] :: rest
    else
      match rest with
      | [] => [[c]]
      | r :: rs => (c :: r) :: rs

/-- Decimal digit test. -/
def isDigitCh (c : Char) : Bool := decide ('0' ≤ c) && decide (c ≤ '9')

/-- Numeric value of a digit list (most significant first). -/
def natOfDigits (cs : List Char) : Nat :=
  cs.foldl (fun n c => n * 10 + (c.toNat - 48)) 0

/-- Parse of a `%Y` field: exactly four digits, year at least 1 (the
`datetime` constructor rejects year 0). -/
def parseYear4 (cs : List Char) : Option Nat :=
  if cs.length == 4 && cs.all isDigitCh then
    let n := natOfDigits cs
    if 1 ≤ n then some n else none
  else none

/-- Parse of a one-or-two-digit numeric field constrained to `[lo, hi]`,
matching the regexes `strptime` uses for `%m`, `%d`, `%H`, `%M`, `%S`. -/
def parseField2 (lo hi : Nat) (cs : List Char) : Option Nat :=
  if (cs.length == 1 || cs.length == 2) && cs.all isDigitCh then
    let n := natOfDigits cs
    if lo ≤ n && n ≤ hi then some n else none
  else none

/-- Parse of a `%Y-%m-%d` date part, including the day-of-month validation
performed by the `datetime` constructor. -/
def parseDatePart (cs : List Char) : Option (Nat × Nat × Nat) :=
  match splitOnChar '-' cs with
  | [ys, ms, ds] =>
    match parseYear4 ys, parseField2 1 12 ms, parseField2 1 31 ds with
    | some y, some m, some d =>
      if d ≤ daysInMonth y m then some (y, m, d) else none
    | _, _, _ => none
  | _ => none

/-- Parse with format `"%Y-%m-%d"`. -/
def parseFmtDate (s : String) : Option DT :=
  match parseDatePart s.data with
  | some (y, m, d) => some ⟨y, m, d, 0, 0, 0⟩
  | none => none

/-- Parse with format `"%Y-%m-%d %H:%M"`. -/
def parseFmtMinute (s : String) : Option DT :=
  match splitOnChar ' ' s.data with
  | [dp, tp] =>
    match splitOnChar ':' tp with
    | [hs, ms] =>
      match parseDatePart dp, parseField2 0 23 hs, parseField2 0 59 ms with
      | some (y, mo, d), some h, some mi => some ⟨y, mo, d, h, mi, 0⟩
      | _, _, _ => none
    | _ => none
  | _ => none

/-- Parse with format `"%Y-%m-%d %H:%M:%S"`. -/
def parseFmtSecond (s : String) : Option DT :=
  match splitOnChar ' ' s.data with
  | [dp, tp] =>
    match splitOnChar ':' tp with
    | [hs, ms, ss] =>
      match parseDatePart dp, parseField2 0 23 hs, parseField2 0 59 ms,
            parseField2 0 59 ss with
      | some (y, mo, d), some h, some mi, some sec =>
        some ⟨y, mo, d, h, mi, sec⟩
      | _, _, _, _ => none
    | _ => none
  | _ => none

/-- Format chain used for `reservation_expiry` in `run_auto_sync_engine`:
`("%Y-%m-%d %H:%M:%S", "%Y-%m-%d %H:%M", "%Y-%m-%d")`, first success wins. -/
def parseExpiry (s : String) : Option DT :=
  match parseFmtSecond s with
  | some d => some d
  | none =>
    match parseFmtMinute s with
    | some d => some d
    | none => parseFmtDate s

/-- Format chain used for the overdue check on `return_date`:
`("%Y-%m-%d", "%Y-%m-%d %H:%M", "%Y-%m-%d %H:%M:%S")`, first success wins. -/
def parseDue (s : String) : Option DT :=
  match parseFmtDate s with
  | some d => some d
  | none =>
    match parseFmtMinute s with
    | some d => some d
    | none => parseFmtSecond s

/-- Decimal rendering of a number, zero-padded to width `w`
(`strftime` zero-padding). -/
def padZeros (w n : Nat) : List Char :=
  let ds := Nat.toDigits 10 n
  List.replicate (w - ds.length) '0' ++ ds

/-- Rendering with `strftime("%Y-%m-%d")`. -/
def fmtDate (d : DT) : String :=
  String.mk (padZeros 4 d.year ++ '-' :: padZeros 2 d.month ++ '-' :: padZeros 2 d.day)

/-- Rendering with `strftime("%Y-%m-%d %H:%M")`. -/
def fmtMinute (d : DT) : String :=
  String.mk (padZeros 4 d.year ++ '-' :: padZeros 2 d.month ++ '-' :: padZeros 2 d.day
    ++ ' ' :: padZeros 2 d.hour ++ ':' :: padZeros 2 d.minute)

/-- Rendering with `strftime("%Y-%m-%d %H:%M:%S")`. -/
def fmtSecond (d : DT) : String :=
  String.mk (padZeros 4 d.year ++ '-' :: padZeros 2 d.month ++ '-' :: padZeros 2 d.day
    ++ ' ' :: padZeros 2 d.hour ++ ':' :: padZeros 2 d.minute ++ ':' :: padZeros 2 d.second)

/-- Book record (`books.json`).  The keys `book_no`, `title` and `status` are
written by every creation path of the source, so they are modelled as total
fields (`b.get("title", "")` style defaults collapse into them). -/
structure Book where
  book_no : String
  title : String
  status : String
deriving DecidableEq, Repr

/-- Transaction record (`transactions.json`).  `book_no`, `school_id` and
`status` are present on every record the source creates; the remaining keys
appear and disappear (`dict.pop`) over the lifecycle, so they are `Option`,
with `none` modelling an absent key. -/
structure Trans where
  book_no : String
  school_id : String
  status : String
  title : String := ""
  date : Option String := none
  transaction_date : Option String := none
  reservation_start : Option String := none
  reservation_expiry : Option String := none
  expiry : Option String := none
  return_date : Option String := none
  borrow_date : Option String := none
  pickup_date : Option String := none
  borrower_name : Option String := none
  reserved_at : Option String := none
deriving DecidableEq, Repr

/-- Password-reset ticket (`tickets.json`).  `expiry` is `Option` because the
sweep accesses it with `t["expiry"]`, which raises `KeyError` when absent. -/
structure Ticket where
  school_id : String
  status : String
  code : Option String := none
  expiry : Option String := none
deriving DecidableEq, Repr

/-- Identity-registry record (`users.json` / `admins.json`), reduced to the
fields `api_finalize_reset` touches. -/
structure Member where
  school_id : String
  password : String
deriving DecidableEq, Repr

/-- The three collections the reconciliation engine reads and writes. -/
structure LState where
  books : List Book
  transactions : List Trans
  tickets : List Ticket
deriving DecidableEq, Repr

/-- Decidable equality for `Except` results, so that concrete engine runs can
be checked by `decide`. -/
instance {ε α : Type} [DecidableEq ε] [DecidableEq α] : DecidableEq (Except ε α) :=
  fun x y =>
    match x, y with
    | .ok a, .ok b =>
      if h : a = b then .isTrue (congrArg Except.ok h)
      else .isFalse (fun hh => h (Except.ok.inj hh))
    | .error a, .error b =>
      if h : a = b then .isTrue (congrArg Except.error h)
      else .isFalse (fun hh => h (Except.error.inj hh))
    | .ok _, .error _ => .isFalse (fun hh => Except.noConfusion hh)
    | .error _, .ok _ => .isFalse (fun hh => Except.noConfusion hh)

/-- Python truthiness filter for an optional string: `None` and `""` are
falsy, anything else passes through. -/
def truthy (o : Option String) : Option String :=
  match o with
  | some s => if s == "" then none else some s
  | none => none

/-- Python `a or b` on two optional strings (first operand wins unless
falsy). -/
def pyOr (a b : Option String) : Option String :=
  match a with
  | some s => if s == "" then b else some s
  | none => b

/-- Expiry source of a reservation:
`expiry_raw = t.get("reservation_expiry") or t.get("expiry")`, followed by the
`if not expiry_raw` truthiness guard. -/
def expiryRaw (t : Trans) : Option String :=
  truthy (pyOr t.reservation_expiry t.expiry)

/-- Expiry decision of the reservation sweep: `expired` is set by the first
format of `("%Y-%m-%d %H:%M:%S", "%Y-%m-%d %H:%M", "%Y-%m-%d")` that parses
(`expired = now > parsed`), and stays `False` when none parses. -/
def reservationExpired (now : DT) (t : Trans) : Bool :=
  match expiryRaw t with
  | none => false
  | some raw =>
    match parseExpiry raw with
    | some dt => DT.ltb dt now
    | none => false

/-- Drop test of the reservation sweep: a transaction is swept exactly when
its stripped status is `"Reserved"` and it is expired. -/
def dropRes (now : DT) (t : Trans) : Bool :=
  pyStrip t.status == "Reserved" && reservationExpired now t

/-- Book update performed when a reservation expires: the first book with
`b["book_no"] == t["book_no"]` (exact comparison) and `b["status"] ==
"Reserved"` gets status `"Available"`. -/
def revertFirstReservedBook (bn : String) : List Book → List Book
  | [] => []
  | b :: bs =>
    if b.book_no == bn && b.status == "Reserved" then
      { b with status := "Available" } :: bs
    else
      b :: revertFirstReservedBook bn bs

/-- Reservation sweep (step 1 of `run_auto_sync_engine`): walks the
transaction list in order, dropping expired reservations and reverting their
books, keeping everything else. -/
def sweepReservations (now : DT) (books : List Book) :
    List Trans → List Book × List Trans
  | [] => (books, [])
  | t :: ts =>
    if dropRes now t then
      sweepReservations now (revertFirstReservedBook t.book_no books) ts
    else
      let r := sweepReservations now books ts
      (r.1, t :: r.2)

/-- Overdue trigger (step 1.1): stripped status `"Borrowed"`, a truthy
`return_date`, parsed by `("%Y-%m-%d", "%Y-%m-%d %H:%M", "%Y-%m-%d %H:%M:%S")`,
and `now.date() > due.date()`. -/
def overdueTriggered (now : DT) (t : Trans) : Bool :=
  pyStrip t.status == "Borrowed" &&
    (match truthy t.return_date with
     | none => false
     | some raw =>
       match parseDue raw with
       | some due => DT.dateLtb due now
       | none => false)

/-- Book update performed for an overdue loan: the first book with matching
`book_no` (exact comparison, no status condition) gets status
`"Unreturned"`. -/
def markFirstBookUnreturned (bn : String) : List Book → List Book
  | [] => []
  | b :: bs =>
    if b.book_no == bn then
      { b with status := "Unreturned" } :: bs
    else
      b :: markFirstBookUnreturned bn bs

/-- Transaction update of the overdue pass: a triggered transaction gets
status `"Unreturned"`, everything else is untouched. -/
def overdueMark (now : DT) (t : Trans) : Trans :=
  if overdueTriggered now t then { t with status := "Unreturned" } else t

/-- Overdue pass (step 1.1 of `run_auto_sync_engine`): walks the transaction
list in order, marking overdue loans and their books `"Unreturned"`. -/
def overduePass (now : DT) (books : List Book) :
    List Trans → List Book × List Trans
  | [] => (books, [])
  | t :: ts =>
    if overdueTriggered now t then
      let r := overduePass now (markFirstBookUnreturned t.book_no books) ts
      (r.1, { t with status := "Unreturned" } :: r.2)
    else
      let r := overduePass now books ts
      (r.1, t :: r.2)

/-- Ticket sweep (step 2 of `run_auto_sync_engine`):
`[t for t in tickets if datetime.strptime(t["expiry"], "%Y-%m-%d %H:%M:%S") > now]`.
The `strptime` call is not guarded, so a missing or unparsable `expiry`
raises (`KeyError` / `ValueError`) and aborts the whole engine run before
anything is saved. -/
def sweepTickets (now : DT) : List Ticket → Except Unit (List Ticket)
  | [] => .ok []
  | t :: ts =>
    match t.expiry with
    | none => .error ()
    | some raw =>
      match parseFmtSecond raw with
      | none => .error ()
      | some dt =>
        match sweepTickets now ts with
        | .error e => .error e
        | .ok rest => .ok (if DT.ltb now dt then t :: rest else rest)

/-- The reconciliation engine `run_auto_sync_engine`, relative to a fixed
`now`.  Returns the updated state, or `error` when the ticket sweep raises,
in which case nothing has been persisted (the raise happens before every
`save_db` of this function). -/
def run_auto_sync_engine (now : DT) (s : LState) : Except Unit LState :=
  let r1 := sweepReservations now s.books s.transactions
  let r2 := overduePass now r1.1 r1.2
  match sweepTickets now s.tickets with
  | .error e => .error e
  | .ok tk => .ok ⟨r2.1, r2.2, tk⟩

/-- Outcome of `api_reserve` (the HTTP-level JSON bodies collapsed to their
discriminating content). -/
inductive ReserveResult where
  | success
  | duplicateReservation
  | quotaExceeded
  | unavailable
deriving DecidableEq, Repr

/-- Reservation-expiry computation of `api_reserve`: a truthy, date-parsable
`pickup_date` yields the end of that calendar day (23:59:59) and the
reformatted pickup date; otherwise `now + 30` minutes and an empty pickup
date. -/
def pickupInfo (now : DT) (pickup_raw : String) : DT × String :=
  if pickup_raw == "" then (now.addMinutes30, "")
  else
    match parseFmtDate pickup_raw with
    | some pd => ({ pd with hour := 23, minute := 59, second := 59 }, fmtDate pd)
    | none => (now.addMinutes30, "")

/-- Transaction record appended by a successful `api_reserve`. -/
def mkReservation (now : DT) (b : Book) (b_no s_id pickup_raw borrower_raw : String) :
    Trans :=
  let rs := fmtSecond now
  let pk := pickupInfo now (pyStrip pickup_raw)
  { book_no := b_no
    title := b.title
    school_id := s_id
    status := "Reserved"
    date := some (fmtMinute now)
    reservation_start := some rs
    reservation_expiry := some (fmtSecond pk.1)
    expiry := some (fmtSecond pk.1)
    borrower_name := some (pyStrip borrower_raw)
    pickup_date := some pk.2
    reserved_at := some rs }

/-- Book loop of `api_reserve`: the first book with `b["book_no"] == b_no`
(exact comparison) and `b["status"] == "Available"` is reserved, yielding the
updated book list and the new transaction; `none` when no such book exists. -/
def reserveLoop (now : DT) (b_no s_id pickup_raw borrower_raw : String) :
    List Book → Option (List Book × Trans)
  | [] => none
  | b :: bs =>
    if b.book_no == b_no && b.status == "Available" then
      some ({ b with status := "Reserved" } :: bs,
            mkReservation now b b_no s_id pickup_raw borrower_raw)
    else
      match reserveLoop now b_no s_id pickup_raw borrower_raw bs with
      | some r => some (b :: r.1, r.2)
      | none => none

/-- The `/api/reserve` handler after authentication: it runs
`run_auto_sync_engine` (at time `nowSync`) and re-reads the saved state, then
checks the duplicate-reservation guard, then the 5-reservation quota, then
scans for an available copy.  An engine exception propagates with nothing
further persisted. -/
def api_reserve (nowSync now : DT) (b_no school_id_raw pickup_raw borrower_raw : String)
    (s : LState) : Except Unit (ReserveResult × LState) :=
  let s_id := normId school_id_raw
  match run_auto_sync_engine nowSync s with
  | .error e => .error e
  | .ok s1 =>
    let active := s1.transactions.filter
      (fun t => t.school_id == s_id && t.status == "Reserved")
    if active.any (fun t => t.book_no == b_no) then
      .ok (.duplicateReservation, s1)
    else if 5 ≤ active.length then
      .ok (.quotaExceeded, s1)
    else
      match reserveLoop now b_no s_id pickup_raw borrower_raw s1.books with
      | some r => .ok (.success, ⟨r.1, s1.transactions ++ [r.2], s1.tickets⟩)
      | none => .ok (.unavailable, s1)

/-- Outcome of the borrow branch of `api_process_trans`. -/
inductive BorrowResult where
  | success
  | missingDate
  | invalidDate
  | notReserved
deriving DecidableEq, Repr

/-- Field updates applied to the reservation converted by a borrow: status
`"Borrowed"`, `borrow_date`/`date` stamped `now`, `return_date` set to the
supplied due date, and the reservation-only keys popped. -/
def borrowedTransUpdate (now : DT) (return_date : String) (t : Trans) : Trans :=
  { t with
    status := "Borrowed"
    borrow_date := some (fmtMinute now)
    return_date := some return_date
    date := some (fmtMinute now)
    reservation_expiry := none
    reservation_start := none
    expiry := none }

/-- In-place mutation of the first transaction matching
`(book_no, school_id, "Reserved")` (all exact comparisons). -/
def updateFirstReservation (now : DT) (b_no s_id return_date : String) :
    List Trans → List Trans
  | [] => []
  | t :: ts =>
    if t.book_no == b_no && t.school_id == s_id && t.status == "Reserved" then
      borrowedTransUpdate now return_date t :: ts
    else
      t :: updateFirstReservation now b_no s_id return_date ts

/-- In-place mutation of the first book matching `book_no` (the `target_book`
found by `next`), setting its status to `"Borrowed"`. -/
def setFirstBookBorrowed (b_no : String) : List Book → List Book
  | [] => []
  | b :: bs =>
    if b.book_no == b_no then
      { b with status := "Borrowed" } :: bs
    else
      b :: setFirstBookBorrowed b_no bs

/-- The borrow branch of `/api/process_transaction`: a missing or
non-`%Y-%m-%d` `return_date` rejects before any lookup; otherwise the first
book with matching `book_no` and the first transaction matching
`(book_no, school_id, "Reserved")` are required, the book's status must be
`"Reserved"`, and on success both are updated and saved.  Every rejection
returns before `save_db`, so the state is unchanged. -/
def api_process_borrow (now : DT) (b_no school_id_raw return_date_raw : String)
    (s : LState) : BorrowResult × LState :=
  let s_id := normId school_id_raw
  let return_date := pyStrip return_date_raw
  if return_date == "" then
    (.missingDate, s)
  else
    match parseFmtDate return_date with
    | none => (.invalidDate, s)
    | some _ =>
      match s.books.find? (fun b => b.book_no == b_no),
            s.transactions.find?
              (fun t => t.book_no == b_no && t.school_id == s_id &&
                t.status == "Reserved") with
      | some bk, some _ =>
        if bk.status == "Reserved" then
          (.success,
           ⟨setFirstBookBorrowed b_no s.books,
            updateFirstReservation now b_no s_id return_date s.transactions,
            s.tickets⟩)
        else
          (.notReserved, s)
      | _, _ => (.notReserved, s)

/-- The return branch of `/api/process_transaction`: every book with matching
`book_no` becomes `"Available"` and every open transaction (status in
`["Reserved", "Borrowed", "Unreturned"]`, exact comparisons) for that
`book_no` becomes `"Returned"` with `return_date` stamped `now`. -/
def api_process_return (now : DT) (b_no : String) (s : LState) : LState :=
  ⟨s.books.map
     (fun b => if b.book_no == b_no then { b with status := "Available" } else b),
   s.transactions.map
     (fun t =>
       if t.book_no == b_no &&
          (t.status == "Reserved" || t.status == "Borrowed" ||
            t.status == "Unreturned") then
         { t with status := "Returned", return_date := some (fmtMinute now) }
       else t),
   s.tickets⟩

/-- The `/api/finalize_reset` handler: finds a ticket whose stored
`school_id` equals the normalized request id and whose stored `code` equals
the request code (no status or expiry consultation), then rewrites the
password of every matching user and admin and deletes every ticket of that
id; otherwise rejects with nothing changed.  Returns
(success, users, admins, tickets). -/
def api_finalize_reset (school_id_raw : String) (code : Option String)
    (new_pwd : String) (users admins : List Member) (tickets : List Ticket) :
    Bool × List Member × List Member × List Ticket :=
  let s_id := normId school_id_raw
  match tickets.find? (fun t => t.school_id == s_id && t.code == code) with
  | some _ =>
    (true,
     users.map (fun u => if u.school_id == s_id then { u with password := new_pwd } else u),
     admins.map (fun u => if u.school_id == s_id then { u with password := new_pwd } else u),
     tickets.filter (fun t => !(t.school_id == s_id)))
  | none => (false, users, admins, tickets)

/-- Lexicographic `≤` on character lists; models the binary text collation
SQLite applies in `ORDER BY` (identical to code-point order on the ASCII
identifiers this system uses). -/
def charListLe : List Char → List Char → Bool
  | [], _ => true
  | _ :: _, [] => false
  | a :: as, b :: bs => if a == b then charListLe as bs else decide (a < b)

/-- Lexicographic `≤` on strings. -/
def strLeb (a b : String) : Bool := charListLe a.data b.data

/-- Flexible timestamp parse `_parse_transaction_date`: strip, empty is
`None`, then the formats `("%Y-%m-%d %H:%M", "%Y-%m-%d %H:%M:%S",
"%Y-%m-%d")` in order. -/
def parse_transaction_date (raw : Option String) : Option DT :=
  let value := pyStrip (match raw with | some s => s | none => "")
  if value == "" then none
  else
    match parseFmtMinute value with
    | some d => some d
    | none =>
      match parseFmtSecond value with
      | some d => some d
      | none => parseFmtDate value

/-- Effective transaction date `_extract_transaction_date`:
`tx.get("transaction_date") or tx.get("date")`. -/
def extract_transaction_date (t : Trans) : Option DT :=
  parse_transaction_date (pyOr t.transaction_date t.date)

/-- Current-month filter `_current_month_borrowed_transactions`: a parsed
effective date in the current year and month, and a stripped, lowered status
in `{"borrowed", "returned"}`. -/
def current_month_borrowed_transactions (now : DT) (txs : List Trans) : List Trans :=
  txs.filter (fun tx =>
    match extract_transaction_date tx with
    | none => false
    | some d =>
      d.year == now.year && d.month == now.month &&
        (pyLower (pyStrip tx.status) == "borrowed" ||
          pyLower (pyStrip tx.status) == "returned"))

/-- Row of the in-memory `monthly_transactions` SQL table.  The
`transaction_date` column holds `strftime("%Y-%m-%d %H:%M:%S")` of the parsed
date, from which SQLite's `strftime("%m")` / `strftime("%Y")` recover exactly
`tdate.month` / `tdate.year`; the row therefore carries the parsed date. -/
structure MTRow where
  book_no : String
  status : String
  tdate : DT
deriving DecidableEq, Repr

/-- Row of the in-memory `books` SQL table. -/
structure BookRow where
  book_no : String
  title : String
deriving DecidableEq, Repr

/-- Rows inserted into `monthly_transactions`: the current-month transactions
with stripped `book_no`, stripped lowered `status`, and their parsed date. -/
def mtRows (now : DT) (txs : List Trans) : List MTRow :=
  (current_month_borrowed_transactions now txs).filterMap (fun tx =>
    match extract_transaction_date tx with
    | some d => some ⟨pyStrip tx.book_no, pyLower (pyStrip tx.status), d⟩
    | none => none)

/-- Rows inserted into the `books` SQL table (stripped `book_no` and
`title`). -/
def bookRows (books : List Book) : List BookRow :=
  books.map (fun b => ⟨pyStrip b.book_no, pyStrip b.title⟩)

/-- One transaction row after
`LEFT JOIN books b ON LOWER(b.book_no) = LOWER(mt.book_no)`: one output row
per matching book, or a single `none`-extended row when no book matches. -/
def joinRow (books : List BookRow) (mt : MTRow) : List (MTRow × Option BookRow) :=
  match books.filter (fun b => pyLower b.book_no == pyLower mt.book_no) with
  | [] => [(mt, none)]
  | bs => bs.map (fun b => (mt, some b))

/-- The joined relation, in transaction-major order. -/
def joinedRows (books : List BookRow) (mts : List MTRow) :
    List (MTRow × Option BookRow) :=
  (mts.map (joinRow books)).flatten

/-- The `WHERE` clause of the top-books query: non-empty trimmed `book_no`,
status in `('borrowed', 'returned')`, and the transaction date in the current
month and year. -/
def whereOk (now : DT) (r : MTRow × Option BookRow) : Bool :=
  !(pyStrip r.1.book_no == "") &&
    (r.1.status == "borrowed" || r.1.status == "returned") &&
    r.1.tdate.month == now.month && r.1.tdate.year == now.year

/-- The `SELECT` expression
`COALESCE(NULLIF(b.title, ''), mt.book_no) AS title`. -/
def resolvedTitle (r : MTRow × Option BookRow) : String :=
  match r.2 with
  | some b => if b.title == "" then r.1.book_no else b.title
  | none => r.1.book_no

/-- The `GROUP BY mt.book_no, title` key of a joined row. -/
def rowKey (r : MTRow × Option BookRow) : String × String :=
  (r.1.book_no, resolvedTitle r)

/-- First-occurrence deduplication, the grouping-key enumeration. -/
def dedupFirst {α : Type} [DecidableEq α] : List α → List α
  | [] => []
  | k :: ks => k :: (dedupFirst ks).filter (fun k2 => !(k2 == k))

/-- Grouping with `COUNT(*)`: each distinct key with the number of joined
rows (after `WHERE`) carrying it. -/
def groupCounts (rows : List (MTRow × Option BookRow)) :
    List ((String × String) × Nat) :=
  (dedupFirst (rows.map rowKey)).map
    (fun k => (k, rows.countP (fun r => rowKey r == k)))

/-- The `ORDER BY total_borrowed DESC, LOWER(mt.book_no) ASC` comparison. -/
def rowLe (a b : (String × String) × Nat) : Bool :=
  if a.2 == b.2 then strLeb (pyLower a.1.1) (pyLower b.1.1) else decide (b.2 < a.2)

/-- One entry of the `top_books` payload. -/
structure TopBookRow where
  rank : Nat
  book_no : String
  title : String
  total_borrowed : Nat
deriving DecidableEq, Repr

/-- Insertion of an element after every earlier element that compares
less-or-equal — the stable insertion step of `sortByLe`. -/
def insertSorted {α : Type} (le : α → α → Bool) (a : α) : List α → List α
  | [] => [a]
  | b :: bs => if le b a then b :: insertSorted le a bs else a :: b :: bs

/-- Stable sort by a boolean `≤`, modelling SQLite's `ORDER BY` (the order
of full ties, which SQLite leaves unspecified, is fixed here to
first-encounter group order). -/
def sortByLe {α : Type} (le : α → α → Bool) (l : List α) : List α :=
  l.foldl (fun acc a => insertSorted le a acc) []

/-- The top-books half of `_build_monthly_leaderboard_payload`: join, filter,
group, count, sort, truncate to `limit`, and rank from 1. -/
def topBooks (now : DT) (books : List Book) (txs : List Trans) (limit : Nat) :
    List TopBookRow :=
  (((sortByLe rowLe (groupCounts
      ((joinedRows (bookRows books) (mtRows now txs)).filter
        (whereOk now)))).take limit).enum).map
    (fun p => ⟨p.1 + 1, p.2.1.1, p.2.1.2, p.2.2⟩)

/-- Active (non-terminal) transaction: stripped status `Reserved`, `Borrowed`
or `Unreturned`. -/
def activeTrans (t : Trans) : Bool :=
  pyStrip t.status == "Reserved" || pyStrip t.status == "Borrowed" ||
    pyStrip t.status == "Unreturned"

/-- The §3 invariant: at most one transaction per `book_no` is in a
non-terminal status. -/
def onePerBook (ts : List Trans) : Prop :=
  ts.Pairwise (fun a b => activeTrans a = true → activeTrans b = true →
    a.book_no ≠ b.book_no)

/-- The §3 data-model assumption: exactly one book record per `book_no`. -/
def uniqueBookNos (books : List Book) : Prop :=
  (books.map Book.book_no).Nodup

/-- Agreement between a book's status and its active transaction: every book
carrying the `book_no` of an active transaction has that transaction's
(stripped) status. -/
def statusAgrees (s : LState) : Prop :=
  ∀ t ∈ s.transactions, activeTrans t = true →
    ∀ b ∈ s.books, b.book_no = t.book_no → b.status = pyStrip t.status

/-- Weak consequence of `statusAgrees` that the engine preserves: no book
carrying an active transaction's `book_no` is `"Available"`. -/
def noAvailConflict (s : LState) : Prop :=
  ∀ t ∈ s.transactions, activeTrans t = true →
    ∀ b ∈ s.books, b.book_no = t.book_no → b.status ≠ "Available"

instance (books : List Book) : Decidable (uniqueBookNos books) := by
  unfold uniqueBookNos
  infer_instance

instance (ts : List Trans) : Decidable (onePerBook ts) := by
  unfold onePerBook
  infer_instance

instance (s : LState) : Decidable (statusAgrees s) := by
  unfold statusAgrees
  infer_instance

instance (s : LState) : Decidable (noAvailConflict s) := by
  unfold noAvailConflict
  infer_instance

/-- Decidable ticket-side precondition of a clean engine run: the `expiry`
key is present and parses with `"%Y-%m-%d %H:%M:%S"`. -/
def ticketExpiryParses (t : Ticket) : Bool :=
  match t.expiry with
  | some raw => (parseFmtSecond raw).isSome
  | none => false

theorem sweep_snd (now : DT) (bs : List Book) (ts : List Trans) :
    (sweepReservations now bs ts).2 = ts.filter (fun t => !dropRes now t) := by
  induction ts generalizing bs with
  | nil => simp [sweepReservations]
  | cons t ts ih =>
    by_cases h : dropRes now t = true
    · simp [sweepReservations, h, List.filter_cons, ih]
    · simp at h
      simp [sweepReservations, h, List.filter_cons, ih]

theorem overdue_snd (now : DT) (bs : List Book) (ts : List Trans) :
    (overduePass now bs ts).2 = ts.map (overdueMark now) := by
  induction ts generalizing bs with
  | nil => simp [overduePass]
  | cons t ts ih =>
    by_cases h : overdueTriggered now t = true
    · simp [overduePass, h, overdueMark, ih]
    · simp at h
      simp [overduePass, h, overdueMark, ih]

theorem sweep_fst_of_keep (now : DT) (bs : List Book) (ts : List Trans)
    (h : ∀ t ∈ ts, dropRes now t = false) :
    (sweepReservations now bs ts).1 = bs := by
  induction ts generalizing bs with
  | nil => simp [sweepReservations]
  | cons t ts ih =>
    have h0 := h t (List.mem_cons_self t ts)
    simp [sweepReservations, h0]
    exact ih bs (fun u hu => h u (List.mem_cons_of_mem t hu))

theorem overdue_fst_of_none (now : DT) (bs : List Book) (ts : List Trans)
    (h : ∀ t ∈ ts, overdueTriggered now t = false) :
    (overduePass now bs ts).1 = bs := by
  induction ts generalizing bs with
  | nil => simp [overduePass]
  | cons t ts ih =>
    have h0 := h t (List.mem_cons_self t ts)
    simp [overduePass, h0]
    exact ih bs (fun u hu => h u (List.mem_cons_of_mem t hu))

theorem overdueMark_book_no (now : DT) (t : Trans) :
    (overdueMark now t).book_no = t.book_no := by
  unfold overdueMark
  by_cases h : overdueTriggered now t = true <;> simp [h]

theorem activeTrans_overdueMark (now : DT) (t : Trans) :
    activeTrans (overdueMark now t) = activeTrans t := by
  unfold overdueMark
  by_cases h : overdueTriggered now t = true
  · have hb : pyStrip t.status = "Borrowed" := by
      unfold overdueTriggered at h
      exact eq_of_beq ((Bool.and_eq_true _ _).mp h).1
    simp [h, activeTrans, hb]
    decide
  · simp [h]

theorem overdueTriggered_overdueMark (now : DT) (t : Trans) :
    overdueTriggered now (overdueMark now t) = false := by
  unfold overdueMark
  by_cases h : overdueTriggered now t = true
  · simp [h]
    unfold overdueTriggered
    have : pyStrip "Unreturned" = "Unreturned" := rfl
    simp [this]
  · simp [h]

theorem dropRes_overdueMark (now : DT) (t : Trans)
    (h : dropRes now t = false) :
    dropRes now (overdueMark now t) = false := by
  unfold overdueMark
  by_cases htr : overdueTriggered now t = true
  · simp [htr]
    unfold dropRes
    have : pyStrip "Unreturned" = "Unreturned" := rfl
    simp [this]
  · simp only [htr, if_false, ite_false]
    exact h

theorem overdueMark_of_not_triggered (now : DT) (t : Trans)
    (h : overdueTriggered now t = false) : overdueMark now t = t := by
  simp [overdueMark, h]

theorem sweepTickets_ok_mem (now : DT) (tks out : List Ticket)
    (h : sweepTickets now tks = .ok out) :
    ∀ t ∈ out, ∃ raw dt, t.expiry = some raw ∧ parseFmtSecond raw = some dt ∧
      DT.ltb now dt = true := by
  induction tks generalizing out with
  | nil =>
    simp [sweepTickets] at h
    subst h
    intro t ht
    simp at ht
  | cons t0 tks ih =>
    unfold sweepTickets at h
    match hexp : t0.expiry with
    | none =>
      simp only [hexp] at h
      exact Except.noConfusion h
    | some raw =>
      match hp : parseFmtSecond raw with
      | none =>
        simp only [hexp, hp] at h
        exact Except.noConfusion h
      | some dt =>
        match hrec : sweepTickets now tks with
        | .error e =>
          simp only [hexp, hp, hrec] at h
          exact Except.noConfusion h
        | .ok rest =>
          simp only [hexp, hp, hrec, Except.ok.injEq] at h
          by_cases hlt : DT.ltb now dt = true
          · rw [if_pos hlt] at h
            subst h
            intro u hu
            rcases List.mem_cons.mp hu with hu0 | hu1
            · subst hu0
              exact ⟨raw, dt, hexp, hp, hlt⟩
            · exact ih rest hrec u hu1
          · rw [if_neg hlt] at h
            subst h
            exact ih rest hrec

theorem sweepTickets_fixed (now : DT) (tks : List Ticket)
    (h : ∀ t ∈ tks, ∃ raw dt, t.expiry = some raw ∧ parseFmtSecond raw = some dt ∧
      DT.ltb now dt = true) :
    sweepTickets now tks = .ok tks := by
  induction tks with
  | nil => simp [sweepTickets]
  | cons t0 tks ih =>
    obtain ⟨raw, dt, hexp, hp, hlt⟩ := h t0 (List.mem_cons_self t0 tks)
    unfold sweepTickets
    simp only [hexp, hp, ih (fun u hu => h u (List.mem_cons_of_mem t0 hu)),
      if_pos hlt]

theorem sweepTickets_isOk (now : DT) (tks : List Ticket)
    (h : ∀ t ∈ tks, ticketExpiryParses t = true) :
    ∃ out, sweepTickets now tks = .ok out := by
  induction tks with
  | nil => exact ⟨[], rfl⟩
  | cons t0 tks ih =>
    have h0 := h t0 (List.mem_cons_self t0 tks)
    unfold ticketExpiryParses at h0
    obtain ⟨rest, hrest⟩ := ih (fun u hu => h u (List.mem_cons_of_mem t0 hu))
    match hexp : t0.expiry with
    | none =>
      simp only [hexp] at h0
      exact Bool.noConfusion h0
    | some raw =>
      match hp : parseFmtSecond raw with
      | none =>
        simp only [hexp, hp, Option.isSome_none] at h0
        exact Bool.noConfusion h0
      | some dt =>
        refine ⟨if DT.ltb now dt then t0 :: rest else rest, ?_⟩
        unfold sweepTickets
        simp only [hexp, hp, hrest]

/-- Shape of a successful engine run: the transaction list is the
keep-filter of the reservation sweep followed by the overdue marking, the
ticket list is the sweep's output, and the book list is the two passes'
book fold. -/
theorem engine_ok_shape (now : DT) (s s2 : LState)
    (h : run_auto_sync_engine now s = .ok s2) :
    s2.transactions =
      (s.transactions.filter (fun t => !dropRes now t)).map (overdueMark now) ∧
    sweepTickets now s.tickets = .ok s2.tickets ∧
    s2.books =
      (overduePass now (sweepReservations now s.books s.transactions).1
        ((sweepReservations now s.books s.transactions).2)).1 := by
  unfold run_auto_sync_engine at h
  match htk : sweepTickets now s.tickets with
  | .error e => rw [htk] at h; exact absurd h (by simp)
  | .ok tk =>
    rw [htk] at h
    simp at h
    subst h
    refine ⟨?_, rfl, rfl⟩
    rw [overdue_snd, sweep_snd]

/-- After a successful engine run every transaction is both unexpired (as a
reservation) and not overdue-triggerable at the same `now`. -/
theorem engine_ok_trans_stable (now : DT) (s s2 : LState)
    (h : run_auto_sync_engine now s = .ok s2) :
    ∀ t ∈ s2.transactions, dropRes now t = false ∧
      overdueTriggered now t = false := by
  intro t ht
  obtain ⟨htr, -, -⟩ := engine_ok_shape now s s2 h
  rw [htr] at ht
  obtain ⟨u, hu, hut⟩ := List.mem_map.mp ht
  have hkeep : dropRes now u = false := by
    have := (List.mem_filter.mp hu).2
    simpa using this
  subst hut
  exact ⟨dropRes_overdueMark now u hkeep, overdueTriggered_overdueMark now u⟩

/-- C1 helper: a state produced by a successful engine run is a fixed point
of the engine at the same `now`. -/
theorem engine_ok_fixed (now : DT) (s s2 : LState)
    (h : run_auto_sync_engine now s = .ok s2) :
    run_auto_sync_engine now s2 = .ok s2 := by
  have hstable := engine_ok_trans_stable now s s2 h
  obtain ⟨-, htk, -⟩ := engine_ok_shape now s s2 h
  have htk2 : sweepTickets now s2.tickets = .ok s2.tickets :=
    sweepTickets_fixed now s2.tickets
      (sweepTickets_ok_mem now s.tickets s2.tickets htk)
  have hsw1 : (sweepReservations now s2.books s2.transactions).1 = s2.books :=
    sweep_fst_of_keep now s2.books s2.transactions
      (fun t ht => (hstable t ht).1)
  have hsw2 : (sweepReservations now s2.books s2.transactions).2 =
      s2.transactions := by
    rw [sweep_snd]
    exact List.filter_eq_self.mpr (fun t ht => by simp [(hstable t ht).1])
  have hov1 : (overduePass now s2.books s2.transactions).1 = s2.books :=
    overdue_fst_of_none now s2.books s2.transactions
      (fun t ht => (hstable t ht).2)
  have hov2 : (overduePass now s2.books s2.transactions).2 =
      s2.transactions := by
    rw [overdue_snd]
    have : ∀ t ∈ s2.transactions, overdueMark now t = t := fun t ht =>
      overdueMark_of_not_triggered now t (hstable t ht).2
    calc s2.transactions.map (overdueMark now)
        = s2.transactions.map id := List.map_congr_left this
      _ = s2.transactions := List.map_id s2.transactions
  unfold run_auto_sync_engine
  simp only [hsw1, hsw2, hov1, hov2, htk2]

theorem revert_map_book_no (bn : String) (bs : List Book) :
    (revertFirstReservedBook bn bs).map Book.book_no = bs.map Book.book_no := by
  induction bs with
  | nil => rfl
  | cons b0 rest ih =>
    unfold revertFirstReservedBook
    by_cases h : (b0.book_no == bn && b0.status == "Reserved") = true
    · simp [h]
    · simp [h, ih]

theorem mark_map_book_no (bn : String) (bs : List Book) :
    (markFirstBookUnreturned bn bs).map Book.book_no = bs.map Book.book_no := by
  induction bs with
  | nil => rfl
  | cons b0 rest ih =>
    unfold markFirstBookUnreturned
    by_cases h : (b0.book_no == bn) = true
    · simp [h]
    · simp [h, ih]

theorem revert_mem_of_ne (bn : String) (bs : List Book) (b : Book)
    (hb : b ∈ bs) (hne : b.book_no ≠ bn) :
    b ∈ revertFirstReservedBook bn bs := by
  induction bs with
  | nil => cases hb
  | cons b0 rest ih =>
    unfold revertFirstReservedBook
    rcases List.mem_cons.mp hb with rfl | hbrest
    · have h0 : (b.book_no == bn) = false := by simp [hne]
      simp [h0]
    · by_cases h : (b0.book_no == bn && b0.status == "Reserved") = true
      · simp [h]
        exact Or.inr hbrest
      · simp [h]
        exact Or.inr (ih hbrest)

theorem mark_mem_of_ne (bn : String) (bs : List Book) (b : Book)
    (hb : b ∈ bs) (hne : b.book_no ≠ bn) :
    b ∈ markFirstBookUnreturned bn bs := by
  induction bs with
  | nil => cases hb
  | cons b0 rest ih =>
    unfold markFirstBookUnreturned
    rcases List.mem_cons.mp hb with rfl | hbrest
    · have h0 : (b.book_no == bn) = false := by simp [hne]
      simp [h0]
    · by_cases h : (b0.book_no == bn) = true
      · simp [h]
        exact Or.inr hbrest
      · simp [h]
        exact Or.inr (ih hbrest)

theorem revert_mem_of_status_ne (bn : String) (bs : List Book) (b : Book)
    (hb : b ∈ bs) (hst : b.status ≠ "Reserved") :
    b ∈ revertFirstReservedBook bn bs := by
  induction bs with
  | nil => cases hb
  | cons b0 rest ih =>
    unfold revertFirstReservedBook
    rcases List.mem_cons.mp hb with rfl | hbrest
    · have h0 : (b.status == "Reserved") = false := by simp [hst]
      simp [h0]
    · by_cases h : (b0.book_no == bn && b0.status == "Reserved") = true
      · simp [h]
        exact Or.inr hbrest
      · simp [h]
        exact Or.inr (ih hbrest)

theorem mark_mem_of_unret (bn : String) (bs : List Book) (b : Book)
    (hb : b ∈ bs) (hst : b.status = "Unreturned") :
    b ∈ markFirstBookUnreturned bn bs := by
  induction bs with
  | nil => cases hb
  | cons b0 rest ih =>
    unfold markFirstBookUnreturned
    rcases List.mem_cons.mp hb with rfl | hbrest
    · by_cases h : (b.book_no == bn) = true
      · have : { b with status := "Unreturned" } = b := by
          cases b
          simp at hst
          simp [hst]
        simp [h, this]
      · simp [h]
    · by_cases h : (b0.book_no == bn) = true
      · simp [h]
        exact Or.inr hbrest
      · simp [h]
        exact Or.inr (ih hbrest)

theorem revert_mem_target (bn : String) (bs : List Book) (b : Book)
    (hU : (bs.map Book.book_no).Nodup) (hb : b ∈ bs) (hbn : b.book_no = bn)
    (hst : b.status = "Reserved") :
    { b with status := "Available" } ∈ revertFirstReservedBook bn bs := by
  induction bs with
  | nil => cases hb
  | cons b0 rest ih =>
    rw [List.map_cons, List.nodup_cons] at hU
    obtain ⟨hnotin, hUrest⟩ := hU
    unfold revertFirstReservedBook
    rcases List.mem_cons.mp hb with rfl | hbrest
    · have h0 : (b.book_no == bn && b.status == "Reserved") = true := by
        simp [hbn, hst]
      simp [h0]
    · have hbn0 : b0.book_no ≠ bn := by
        intro hcon
        exact hnotin (hcon ▸ hbn ▸ List.mem_map_of_mem Book.book_no hbrest)
      have h0 : (b0.book_no == bn) = false := by simp [hbn0]
      simp [h0]
      exact Or.inr (ih hUrest hbrest)

theorem mark_mem_target (bn : String) (bs : List Book) (b : Book)
    (hU : (bs.map Book.book_no).Nodup) (hb : b ∈ bs) (hbn : b.book_no = bn) :
    { b with status := "Unreturned" } ∈ markFirstBookUnreturned bn bs := by
  induction bs with
  | nil => cases hb
  | cons b0 rest ih =>
    rw [List.map_cons, List.nodup_cons] at hU
    obtain ⟨hnotin, hUrest⟩ := hU
    unfold markFirstBookUnreturned
    rcases List.mem_cons.mp hb with rfl | hbrest
    · have h0 : (b.book_no == bn) = true := by simp [hbn]
      simp [h0]
    · have hbn0 : b0.book_no ≠ bn := by
        intro hcon
        exact hnotin (hcon ▸ hbn ▸ List.mem_map_of_mem Book.book_no hbrest)
      have h0 : (b0.book_no == bn) = false := by simp [hbn0]
      simp [h0]
      exact Or.inr (ih hUrest hbrest)

theorem revert_avail_provenance (bn : String) (bs : List Book) (b2 : Book)
    (hb : b2 ∈ revertFirstReservedBook bn bs) (hst : b2.status = "Available") :
    b2 ∈ bs ∨ b2.book_no = bn := by
  induction bs with
  | nil => cases hb
  | cons b0 rest ih =>
    unfold revertFirstReservedBook at hb
    by_cases h : (b0.book_no == bn && b0.status == "Reserved") = true
    · rw [if_pos h] at hb
      rcases List.mem_cons.mp hb with rfl | hbrest
      · exact Or.inr (eq_of_beq ((Bool.and_eq_true _ _).mp h).1)
      · exact Or.inl (List.mem_cons_of_mem b0 hbrest)
    · rw [if_neg h] at hb
      rcases List.mem_cons.mp hb with rfl | hbrest
      · exact Or.inl (List.mem_cons_self b2 rest)
      · rcases ih hbrest with h1 | h2
        · exact Or.inl (List.mem_cons_of_mem b0 h1)
        · exact Or.inr h2

theorem mark_avail_provenance (bn : String) (bs : List Book) (b2 : Book)
    (hb : b2 ∈ markFirstBookUnreturned bn bs) (hst : b2.status = "Available") :
    b2 ∈ bs := by
  induction bs with
  | nil => cases hb
  | cons b0 rest ih =>
    unfold markFirstBookUnreturned at hb
    by_cases h : (b0.book_no == bn) = true
    · rw [if_pos h] at hb
      rcases List.mem_cons.mp hb with rfl | hbrest
      · exact absurd hst (by simp)
      · exact List.mem_cons_of_mem b0 hbrest
    · rw [if_neg h] at hb
      rcases List.mem_cons.mp hb with rfl | hbrest
      · exact List.mem_cons_self b2 rest
      · exact List.mem_cons_of_mem b0 (ih hbrest)

theorem sweep_fst_mem (now : DT) (bs : List Book) (ts : List Trans) (b : Book)
    (hb : b ∈ bs)
    (h : ∀ t ∈ ts, dropRes now t = true → t.book_no ≠ b.book_no) :
    b ∈ (sweepReservations now bs ts).1 := by
  induction ts generalizing bs with
  | nil => exact hb
  | cons t rest ih =>
    unfold sweepReservations
    by_cases hd : dropRes now t = true
    · simp only [hd, if_true, ite_true]
      refine ih (revertFirstReservedBook t.book_no bs)
        (revert_mem_of_ne t.book_no bs b hb ?_)
        (fun u hu hdu => h u (List.mem_cons_of_mem t hu) hdu)
      exact fun hcon => h t (List.mem_cons_self t rest) hd (hcon ▸ rfl)
    · simp only [hd, if_false, ite_false]
      exact ih bs hb (fun u hu hdu => h u (List.mem_cons_of_mem t hu) hdu)

theorem overdue_fst_mem (now : DT) (bs : List Book) (ts : List Trans) (b : Book)
    (hb : b ∈ bs)
    (h : ∀ t ∈ ts, overdueTriggered now t = true → t.book_no ≠ b.book_no) :
    b ∈ (overduePass now bs ts).1 := by
  induction ts generalizing bs with
  | nil => exact hb
  | cons t rest ih =>
    unfold overduePass
    by_cases hd : overdueTriggered now t = true
    · simp only [hd, if_true, ite_true]
      refine ih (markFirstBookUnreturned t.book_no bs)
        (mark_mem_of_ne t.book_no bs b hb ?_)
        (fun u hu hdu => h u (List.mem_cons_of_mem t hu) hdu)
      exact fun hcon => h t (List.mem_cons_self t rest) hd (hcon ▸ rfl)
    · simp only [hd, if_false, ite_false]
      exact ih bs hb (fun u hu hdu => h u (List.mem_cons_of_mem t hu) hdu)

theorem sweep_fst_mem_status (now : DT) (bs : List Book) (ts : List Trans)
    (b : Book) (hb : b ∈ bs) (hst : b.status ≠ "Reserved") :
    b ∈ (sweepReservations now bs ts).1 := by
  induction ts generalizing bs with
  | nil => exact hb
  | cons t rest ih =>
    unfold sweepReservations
    by_cases hd : dropRes now t = true
    · simp only [hd, if_true, ite_true]
      exact ih (revertFirstReservedBook t.book_no bs)
        (revert_mem_of_status_ne t.book_no bs b hb hst)
    · simp only [hd, if_false, ite_false]
      exact ih bs hb

theorem overdue_fst_mem_unret (now : DT) (bs : List Book) (ts : List Trans)
    (b : Book) (hb : b ∈ bs) (hst : b.status = "Unreturned") :
    b ∈ (overduePass now bs ts).1 := by
  induction ts generalizing bs with
  | nil => exact hb
  | cons t rest ih =>
    unfold overduePass
    by_cases hd : overdueTriggered now t = true
    · simp only [hd, if_true, ite_true]
      exact ih (markFirstBookUnreturned t.book_no bs)
        (mark_mem_of_unret t.book_no bs b hb hst)
    · simp only [hd, if_false, ite_false]
      exact ih bs hb

theorem sweep_fst_map_book_no (now : DT) (bs : List Book) (ts : List Trans) :
    (sweepReservations now bs ts).1.map Book.book_no = bs.map Book.book_no := by
  induction ts generalizing bs with
  | nil => rfl
  | cons t rest ih =>
    unfold sweepReservations
    by_cases hd : dropRes now t = true
    · simp only [hd, if_true, ite_true]
      rw [ih, revert_map_book_no]
    · simp only [hd, if_false, ite_false]
      exact ih bs

theorem sweep_fst_avail (now : DT) (bs : List Book) (ts : List Trans)
    (b2 : Book) (hb : b2 ∈ (sweepReservations now bs ts).1)
    (hst : b2.status = "Available") :
    b2 ∈ bs ∨ ∃ u ∈ ts, dropRes now u = true ∧ u.book_no = b2.book_no := by
  induction ts generalizing bs with
  | nil => exact Or.inl hb
  | cons t rest ih =>
    unfold sweepReservations at hb
    by_cases hd : dropRes now t = true
    · simp only [hd, if_true, ite_true] at hb
      rcases ih (revertFirstReservedBook t.book_no bs) hb with h1 | h2
      · rcases revert_avail_provenance t.book_no bs b2 h1 hst with h3 | h4
        · exact Or.inl h3
        · exact Or.inr ⟨t, List.mem_cons_self t rest, hd, h4.symm⟩
      · obtain ⟨u, hu, hdu, hbn⟩ := h2
        exact Or.inr ⟨u, List.mem_cons_of_mem t hu, hdu, hbn⟩
    · simp only [hd, if_false, ite_false] at hb
      rcases ih bs hb with h1 | h2
      · exact Or.inl h1
      · obtain ⟨u, hu, hdu, hbn⟩ := h2
        exact Or.inr ⟨u, List.mem_cons_of_mem t hu, hdu, hbn⟩

theorem overdue_fst_avail (now : DT) (bs : List Book) (ts : List Trans)
    (b2 : Book) (hb : b2 ∈ (overduePass now bs ts).1)
    (hst : b2.status = "Available") :
    b2 ∈ bs := by
  induction ts generalizing bs with
  | nil => exact hb
  | cons t rest ih =>
    unfold overduePass at hb
    by_cases hd : overdueTriggered now t = true
    · simp only [hd, if_true, ite_true] at hb
      exact mark_avail_provenance t.book_no bs b2
        (ih (markFirstBookUnreturned t.book_no bs) hb) hst
    · simp only [hd, if_false, ite_false] at hb
      exact ih bs hb

theorem sweep_cons (now : DT) (bs : List Book) (t : Trans) (ts : List Trans) :
    sweepReservations now bs (t :: ts) =
      if dropRes now t then
        sweepReservations now (revertFirstReservedBook t.book_no bs) ts
      else
        ((sweepReservations now bs ts).1, t :: (sweepReservations now bs ts).2) :=
  rfl

theorem overdue_cons (now : DT) (bs : List Book) (t : Trans) (ts : List Trans) :
    overduePass now bs (t :: ts) =
      if overdueTriggered now t then
        ((overduePass now (markFirstBookUnreturned t.book_no bs) ts).1,
          { t with status := "Unreturned" } ::
            (overduePass now (markFirstBookUnreturned t.book_no bs) ts).2)
      else
        ((overduePass now bs ts).1, t :: (overduePass now bs ts).2) :=
  rfl

theorem sweep_fst_append (now : DT) (bs : List Book) (l1 l2 : List Trans) :
    (sweepReservations now bs (l1 ++ l2)).1 =
      (sweepReservations now (sweepReservations now bs l1).1 l2).1 := by
  induction l1 generalizing bs with
  | nil => rfl
  | cons t rest ih =>
    rw [List.cons_append, sweep_cons, sweep_cons]
    by_cases hd : dropRes now t = true
    · simp only [hd, if_true, ite_true]
      exact ih (revertFirstReservedBook t.book_no bs)
    · simp only [hd, if_false, ite_false]
      exact ih bs

theorem overdue_fst_append (now : DT) (bs : List Book) (l1 l2 : List Trans) :
    (overduePass now bs (l1 ++ l2)).1 =
      (overduePass now (overduePass now bs l1).1 l2).1 := by
  induction l1 generalizing bs with
  | nil => rfl
  | cons t rest ih =>
    rw [List.cons_append, overdue_cons, overdue_cons]
    by_cases hd : overdueTriggered now t = true
    · simp only [hd, if_true, ite_true]
      exact ih (markFirstBookUnreturned t.book_no bs)
    · simp only [hd, if_false, ite_false]
      exact ih bs

theorem activeTrans_of_reserved {t : Trans} (h : pyStrip t.status = "Reserved") :
    activeTrans t = true := by
  simp [activeTrans, h]

theorem activeTrans_of_borrowed {t : Trans} (h : pyStrip t.status = "Borrowed") :
    activeTrans t = true := by
  simp [activeTrans, h]

theorem activeTrans_of_unreturned {t : Trans}
    (h : pyStrip t.status = "Unreturned") : activeTrans t = true := by
  simp [activeTrans, h]

theorem onePerBook_ne (ts : List Trans) (h : onePerBook ts) {u v : Trans}
    (hu : u ∈ ts) (hv : v ∈ ts) (hne : u ≠ v)
    (hau : activeTrans u = true) (hav : activeTrans v = true) :
    u.book_no ≠ v.book_no := by
  have hsym : Symmetric (fun a b : Trans =>
      activeTrans a = true → activeTrans b = true → a.book_no ≠ b.book_no) := by
    intro a b hab hb ha
    exact Ne.symm (hab ha hb)
  exact List.Pairwise.forall hsym h hu hv hne hau hav

theorem dropRes_true_of {now : DT} {t : Trans}
    (hres : pyStrip t.status = "Reserved")
    (hexp : reservationExpired now t = true) : dropRes now t = true := by
  simp [dropRes, hres, hexp]

theorem strip_of_dropRes {now : DT} {t : Trans} (h : dropRes now t = true) :
    pyStrip t.status = "Reserved" :=
  eq_of_beq ((Bool.and_eq_true _ _).mp h).1

theorem strip_of_triggered {now : DT} {t : Trans}
    (h : overdueTriggered now t = true) : pyStrip t.status = "Borrowed" :=
  eq_of_beq ((Bool.and_eq_true _ _).mp h).1

theorem not_triggered_of_reserved {now : DT} {t : Trans}
    (hres : pyStrip t.status = "Reserved") :
    overdueTriggered now t = false := by
  unfold overdueTriggered
  simp [hres]

/-- C4: during `reconcile()`, every Transaction with stripped status
`Reserved` whose expiry (the `reservation_expiry`-or-`expiry` field) parses
under `%Y-%m-%d %H:%M:%S` / `%Y-%m-%d %H:%M` / `%Y-%m-%d` (first success
wins) with `now > expiry` — i.e. `reservationExpired now t = true` — is
removed from the transaction collection (no `"Expired"` marker is ever
written), and the Book carrying the same `book_no` with status `"Reserved"`
transitions to `"Available"`; a Reserved Transaction whose expiry is absent
or unparsable (`reservationExpired now t = false`) is kept unchanged.
Stated under the §3 data-model assumptions: unique `book_no` per Book and at
most one active Transaction per `book_no`. -/
theorem C4_reservation_expiry (now : DT) (s s2 : LState)
    (hU : uniqueBookNos s.books) (hI : onePerBook s.transactions)
    (hok : run_auto_sync_engine now s = .ok s2)
    (t : Trans) (ht : t ∈ s.transactions)
    (hres : pyStrip t.status = "Reserved") :
    (reservationExpired now t = true →
      t ∉ s2.transactions ∧
      ∀ b ∈ s.books, b.book_no = t.book_no → b.status = "Reserved" →
        { b with status := "Available" } ∈ s2.books) ∧
    (reservationExpired now t = false → t ∈ s2.transactions) ∧
    ((∀ u ∈ s.transactions, u.status ≠ "Expired") →
      ∀ u ∈ s2.transactions, u.status ≠ "Expired") := by
  obtain ⟨htr, htk, hbk⟩ := engine_ok_shape now s s2 hok
  refine ⟨?_, ?_, ?_⟩
  · intro hexp
    have hdrop : dropRes now t = true := dropRes_true_of hres hexp
    constructor
    · rw [htr]
      intro hmem
      obtain ⟨u, hu, hmark⟩ := List.mem_map.mp hmem
      have hkeep : dropRes now u = false := by
        have := (List.mem_filter.mp hu).2
        simpa using this
      by_cases htrig : overdueTriggered now u = true
      · have : t.status = "Unreturned" := by
          rw [← hmark]
          simp [overdueMark, htrig]
        rw [this] at hres
        exact absurd hres (by decide)
      · rw [overdueMark_of_not_triggered now u
          (Bool.not_eq_true _ ▸ by simpa using htrig)] at hmark
        subst hmark
        rw [hkeep] at hdrop
        exact Bool.noConfusion hdrop
    · intro b hbmem hbbn hbst
      obtain ⟨l1, l2, hsplit⟩ := List.append_of_mem ht
      have hIsplit := hI
      unfold onePerBook at hIsplit
      rw [hsplit, List.pairwise_append] at hIsplit
      obtain ⟨hP1, hP2, hcross⟩ := hIsplit
      rw [List.pairwise_cons] at hP2
      obtain ⟨hcross2, -⟩ := hP2
      have hl1 : ∀ u ∈ l1, dropRes now u = true → u.book_no ≠ t.book_no := by
        intro u hu hdu
        exact hcross u hu t (List.mem_cons_self t l2)
          (activeTrans_of_reserved (strip_of_dropRes hdu))
          (activeTrans_of_reserved hres)
      have hl2 : ∀ u ∈ l2, dropRes now u = true → u.book_no ≠ t.book_no := by
        intro u hu hdu
        exact Ne.symm (hcross2 u hu (activeTrans_of_reserved hres)
          (activeTrans_of_reserved (strip_of_dropRes hdu)))
      rw [hbk]
      set A := (sweepReservations now s.books l1).1 with hA
      have hbA : b ∈ A := by
        rw [hA]
        refine sweep_fst_mem now s.books l1 b hbmem ?_
        intro u hu hdu
        rw [hbbn]
        exact hl1 u hu hdu
      have hUA : (A.map Book.book_no).Nodup := by
        rw [hA, sweep_fst_map_book_no]
        exact hU
      have hfst : (sweepReservations now s.books s.transactions).1 =
          (sweepReservations now (revertFirstReservedBook t.book_no A) l2).1 := by
        rw [hsplit, sweep_fst_append, ← hA, sweep_cons, if_pos hdrop]
      have hbAvail : { b with status := "Available" } ∈
          revertFirstReservedBook t.book_no A :=
        revert_mem_target t.book_no A b hUA hbA hbbn hbst
      have hbB1 : { b with status := "Available" } ∈
          (sweepReservations now s.books s.transactions).1 := by
        rw [hfst]
        refine sweep_fst_mem now _ l2 _ hbAvail ?_
        intro u hu hdu
        show u.book_no ≠ b.book_no
        rw [hbbn]
        exact hl2 u hu hdu
      refine overdue_fst_mem now _ _ _ hbB1 ?_
      intro u hu htrig
      show u.book_no ≠ b.book_no
      rw [sweep_snd] at hu
      obtain ⟨humem, hukeep⟩ := List.mem_filter.mp hu
      have hukeep2 : dropRes now u = false := by simpa using hukeep
      have hune : u ≠ t := by
        intro hcon
        rw [hcon, hdrop] at hukeep2
        exact Bool.noConfusion hukeep2
      rw [hbbn]
      exact onePerBook_ne s.transactions hI humem ht hune
        (activeTrans_of_borrowed (strip_of_triggered htrig))
        (activeTrans_of_reserved hres)
  · intro hexp
    have hkeep : dropRes now t = false := by
      simp [dropRes, hexp]
    rw [htr]
    refine List.mem_map.mpr ⟨t, List.mem_filter.mpr ⟨ht, by simp [hkeep]⟩, ?_⟩
    exact overdueMark_of_not_triggered now t (not_triggered_of_reserved hres)
  · intro hno u hu
    rw [htr] at hu
    obtain ⟨v, hv, hmark⟩ := List.mem_map.mp hu
    have hvmem := (List.mem_filter.mp hv).1
    by_cases htrig : overdueTriggered now v = true
    · rw [← hmark]
      simp [overdueMark, htrig]
    · rw [overdueMark_of_not_triggered now v (by simpa using htrig)] at hmark
      subst hmark
      exact hno v hvmem

theorem overdue_fst_map_book_no (now : DT) (bs : List Book) (ts : List Trans) :
    (overduePass now bs ts).1.map Book.book_no = bs.map Book.book_no := by
  induction ts generalizing bs with
  | nil => rfl
  | cons t rest ih =>
    rw [overdue_cons]
    by_cases hd : overdueTriggered now t = true
    · simp only [hd, if_true, ite_true]
      rw [ih, mark_map_book_no]
    · simp only [hd, if_false, ite_false]
      exact ih bs

theorem triggered_of {now : DT} {t : Trans} {raw : String} {due : DT}
    (hbor : pyStrip t.status = "Borrowed")
    (hraw : truthy t.return_date = some raw) (hdue : parseDue raw = some due)
    (hlt : DT.dateLtb due now = true) : overdueTriggered now t = true := by
  unfold overdueTriggered
  simp only [hraw, hdue, hbor, hlt]
  simp

theorem not_triggered_of {now : DT} {t : Trans} {raw : String} {due : DT}
    (hraw : truthy t.return_date = some raw) (hdue : parseDue raw = some due)
    (hlt : DT.dateLtb due now = false) : overdueTriggered now t = false := by
  unfold overdueTriggered
  simp only [hraw, hdue, hlt]
  simp

theorem dropRes_false_of_borrowed {now : DT} {t : Trans}
    (hbor : pyStrip t.status = "Borrowed") : dropRes now t = false := by
  simp [dropRes, hbor]

/-- C5: during `reconcile()`, every Transaction with stripped status
`Borrowed` whose `return_date` is present and parses (formats `%Y-%m-%d`,
`%Y-%m-%d %H:%M`, `%Y-%m-%d %H:%M:%S`, first success wins) and whose due
date is strictly before today (`now.date() > due.date()`) transitions to
`"Unreturned"` together with the Book of the same `book_no`; when the due
date is today or later nothing changes for that record or its book; and
`reconcile()` itself never reverts an `"Unreturned"` transaction or book.
Stated under the §3 assumptions (unique `book_no` per Book, at most one
active Transaction per `book_no`). -/
theorem C5_overdue_detection (now : DT) (s s2 : LState)
    (hU : uniqueBookNos s.books) (hI : onePerBook s.transactions)
    (hok : run_auto_sync_engine now s = .ok s2)
    (t : Trans) (ht : t ∈ s.transactions)
    (hbor : pyStrip t.status = "Borrowed")
    (raw : String) (due : DT) (hraw : truthy t.return_date = some raw)
    (hdue : parseDue raw = some due) :
    (DT.dateLtb due now = true →
      { t with status := "Unreturned" } ∈ s2.transactions ∧
      ∀ b ∈ s.books, b.book_no = t.book_no →
        { b with status := "Unreturned" } ∈ s2.books) ∧
    (DT.dateLtb due now = false →
      t ∈ s2.transactions ∧
      ∀ b ∈ s.books, b.book_no = t.book_no → b ∈ s2.books) ∧
    (∀ u ∈ s.transactions, pyStrip u.status = "Unreturned" →
      u ∈ s2.transactions) ∧
    (∀ b ∈ s.books, b.status = "Unreturned" → b ∈ s2.books) := by
  obtain ⟨htr, htk, hbk⟩ := engine_ok_shape now s s2 hok
  have hkeept : dropRes now t = false := dropRes_false_of_borrowed hbor
  have hmemTS1 : t ∈ s.transactions.filter (fun u => !dropRes now u) :=
    List.mem_filter.mpr ⟨ht, by simp [hkeept]⟩
  have hdropne : ∀ u ∈ s.transactions, dropRes now u = true →
      u.book_no ≠ t.book_no := by
    intro u hu hdu
    have hune : u ≠ t := by
      intro hcon
      rw [hcon] at hdu
      rw [strip_of_dropRes hdu] at hbor
      exact absurd hbor (by decide)
    exact onePerBook_ne s.transactions hI hu ht hune
      (activeTrans_of_reserved (strip_of_dropRes hdu))
      (activeTrans_of_borrowed hbor)
  have hIts1 : List.Pairwise (fun a b : Trans =>
      activeTrans a = true → activeTrans b = true → a.book_no ≠ b.book_no)
      (s.transactions.filter (fun u => !dropRes now u)) :=
    List.Pairwise.sublist (List.filter_sublist s.transactions) hI
  refine ⟨?_, ?_, ?_, ?_⟩
  · intro hlt
    have htrig : overdueTriggered now t = true := triggered_of hbor hraw hdue hlt
    constructor
    · rw [htr]
      refine List.mem_map.mpr ⟨t, hmemTS1, ?_⟩
      simp [overdueMark, htrig]
    · intro b hbmem hbbn
      rw [hbk]
      have hbB1 : b ∈ (sweepReservations now s.books s.transactions).1 := by
        refine sweep_fst_mem now s.books s.transactions b hbmem ?_
        intro u hu hdu
        rw [hbbn]
        exact hdropne u hu hdu
      have hUB1 : ((sweepReservations now s.books s.transactions).1.map
          Book.book_no).Nodup := by
        rw [sweep_fst_map_book_no]
        exact hU
      rw [sweep_snd]
      obtain ⟨m1, m2, hsplit⟩ := List.append_of_mem hmemTS1
      have hP := hIts1
      rw [hsplit, List.pairwise_append] at hP
      obtain ⟨-, hP2, hcross⟩ := hP
      rw [List.pairwise_cons] at hP2
      obtain ⟨hcross2, -⟩ := hP2
      rw [hsplit, overdue_fst_append]
      set A := (overduePass now (sweepReservations now s.books s.transactions).1
        m1).1 with hA
      have hbA : b ∈ A := by
        rw [hA]
        refine overdue_fst_mem now _ m1 b hbB1 ?_
        intro u hu htu
        rw [hbbn]
        exact hcross u hu t (List.mem_cons_self t m2)
          (activeTrans_of_borrowed (strip_of_triggered htu))
          (activeTrans_of_borrowed hbor)
      have hUA : (A.map Book.book_no).Nodup := by
        rw [hA, overdue_fst_map_book_no]
        exact hUB1
      rw [overdue_cons, if_pos htrig]
      show { b with status := "Unreturned" } ∈
        (overduePass now (markFirstBookUnreturned t.book_no A) m2).1
      refine overdue_fst_mem now _ m2 _
        (mark_mem_target t.book_no A b hUA hbA hbbn) ?_
      intro u hu htu
      show u.book_no ≠ b.book_no
      rw [hbbn]
      exact Ne.symm (hcross2 u hu (activeTrans_of_borrowed hbor)
        (activeTrans_of_borrowed (strip_of_triggered htu)))
  · intro hlt
    have htrig : overdueTriggered now t = false := not_triggered_of hraw hdue hlt
    constructor
    · rw [htr]
      exact List.mem_map.mpr ⟨t, hmemTS1, overdueMark_of_not_triggered now t htrig⟩
    · intro b hbmem hbbn
      rw [hbk]
      have hbB1 : b ∈ (sweepReservations now s.books s.transactions).1 := by
        refine sweep_fst_mem now s.books s.transactions b hbmem ?_
        intro u hu hdu
        rw [hbbn]
        exact hdropne u hu hdu
      refine overdue_fst_mem now _ _ b hbB1 ?_
      intro u hu htu
      rw [sweep_snd] at hu
      obtain ⟨humem, -⟩ := List.mem_filter.mp hu
      have hune : u ≠ t := by
        intro hcon
        rw [hcon, htrig] at htu
        exact Bool.noConfusion htu
      rw [hbbn]
      exact onePerBook_ne s.transactions hI humem ht hune
        (activeTrans_of_borrowed (strip_of_triggered htu))
        (activeTrans_of_borrowed hbor)
  · intro u hu hstr
    have hkeep : dropRes now u = false := by simp [dropRes, hstr]
    have htrig : overdueTriggered now u = false := by
      unfold overdueTriggered
      simp [hstr]
    rw [htr]
    exact List.mem_map.mpr ⟨u, List.mem_filter.mpr ⟨hu, by simp [hkeep]⟩,
      overdueMark_of_not_triggered now u htrig⟩
  · intro b hb hst
    rw [hbk]
    have h1 : b ∈ (sweepReservations now s.books s.transactions).1 :=
      sweep_fst_mem_status now s.books s.transactions b hb
        (by rw [hst]; decide)
    exact overdue_fst_mem_unret now _ _ b h1 hst

/-- Sample timestamp for the C4/C5 witnesses: 2025-06-15 12:00:00. -/
def wNow : DT := ⟨2025, 6, 15, 12, 0, 0⟩

/-- Expired reservation (expiry one hour in the past). -/
def c4t : Trans :=
  { book_no := "B1"
    school_id := "al"
    status := "Reserved"
    reservation_expiry := some "2025-06-15 11:00:00" }

/-- Reservation with an unparsable expiry (kept as still active). -/
def c4t2 : Trans :=
  { book_no := "B2"
    school_id := "al"
    status := "Reserved"
    reservation_expiry := some "junk" }

/-- C4 witness starting state. -/
def c4s : LState := ⟨[⟨"B1", "T", "Reserved"⟩], [c4t, c4t2], []⟩

/-- C4 witness reconciled state. -/
def c4s2 : LState := ⟨[⟨"B1", "T", "Available"⟩], [c4t2], []⟩

/-- C4 witness: on a concrete state the expired reservation is swept and its
book reverted, while the unparsable-expiry reservation survives. -/
theorem C4_reservation_expiry_witness :
    c4t ∉ c4s2.transactions ∧
    ({ book_no := "B1", title := "T", status := "Available" } : Book) ∈
      c4s2.books ∧
    c4t2 ∈ c4s2.transactions := by
  have h1 := C4_reservation_expiry wNow c4s c4s2 (by decide) (by decide)
    (by decide) c4t (by decide) (by decide)
  have h2 := C4_reservation_expiry wNow c4s c4s2 (by decide) (by decide)
    (by decide) c4t2 (by decide) (by decide)
  refine ⟨(h1.1 (by decide)).1, ?_, h2.2.1 (by decide)⟩
  exact (h1.1 (by decide)).2 ⟨"B1", "T", "Reserved"⟩ (by decide) (by decide)
    (by decide)

/-- Overdue loan (due yesterday). -/
def c5t : Trans :=
  { book_no := "B1"
    school_id := "bob"
    status := "Borrowed"
    return_date := some "2025-06-14" }

/-- Loan due exactly today (not overdue). -/
def c5t2 : Trans :=
  { book_no := "B2"
    school_id := "eve"
    status := "Borrowed"
    return_date := some "2025-06-15" }

/-- Already-unreturned record (must not be reverted). -/
def c5t3 : Trans :=
  { book_no := "B3"
    school_id := "kim"
    status := "Unreturned" }

/-- C5 witness starting state. -/
def c5s : LState :=
  ⟨[⟨"B1", "T1", "Borrowed"⟩, ⟨"B2", "T2", "Borrowed"⟩,
    ⟨"B3", "T3", "Unreturned"⟩], [c5t, c5t2, c5t3], []⟩

/-- C5 witness reconciled state. -/
def c5s2 : LState :=
  ⟨[⟨"B1", "T1", "Unreturned"⟩, ⟨"B2", "T2", "Borrowed"⟩,
    ⟨"B3", "T3", "Unreturned"⟩],
   [{ c5t with status := "Unreturned" }, c5t2, c5t3], []⟩

/-- C5 witness: on a concrete state the overdue loan and its book turn
`Unreturned`, the loan due exactly today is untouched, and existing
`Unreturned` records survive. -/
theorem C5_overdue_detection_witness :
    ({ c5t with status := "Unreturned" } ∈ c5s2.transactions ∧
      ({ book_no := "B1", title := "T1", status := "Unreturned" } : Book) ∈
        c5s2.books) ∧
    (c5t2 ∈ c5s2.transactions ∧
      (⟨"B2", "T2", "Borrowed"⟩ : Book) ∈ c5s2.books) ∧
    c5t3 ∈ c5s2.transactions ∧
    (⟨"B3", "T3", "Unreturned"⟩ : Book) ∈ c5s2.books := by
  have h1 := C5_overdue_detection wNow c5s c5s2 (by decide) (by decide)
    (by decide) c5t (by decide) (by decide) "2025-06-14" ⟨2025, 6, 14, 0, 0, 0⟩
    (by decide) (by decide)
  have h2 := C5_overdue_detection wNow c5s c5s2 (by decide) (by decide)
    (by decide) c5t2 (by decide) (by decide) "2025-06-15" ⟨2025, 6, 15, 0, 0, 0⟩
    (by decide) (by decide)
  refine ⟨⟨(h1.1 (by decide)).1,
    (h1.1 (by decide)).2 ⟨"B1", "T1", "Borrowed"⟩ (by decide) (by decide)⟩,
    ⟨(h2.2.1 (by decide)).1, ?_⟩,
    h1.2.2.1 c5t3 (by decide) (by decide),
    h1.2.2.2 ⟨"B3", "T3", "Unreturned"⟩ (by decide) (by decide)⟩
  exact (h2.2.1 (by decide)).2 ⟨"B2", "T2", "Borrowed"⟩ (by decide) (by decide)

theorem engine_preserves_onePerBook (now : DT) (s s2 : LState)
    (hI : onePerBook s.transactions)
    (hok : run_auto_sync_engine now s = .ok s2) :
    onePerBook s2.transactions := by
  obtain ⟨htr, -, -⟩ := engine_ok_shape now s s2 hok
  rw [htr]
  refine List.Pairwise.map (overdueMark now) ?_
    (List.Pairwise.sublist (List.filter_sublist s.transactions) hI)
  intro a b hab ha hb
  rw [overdueMark_book_no, overdueMark_book_no]
  rw [activeTrans_overdueMark] at ha hb
  exact hab ha hb

theorem engine_preserves_noAvail (now : DT) (s s2 : LState)
    (hI : onePerBook s.transactions) (hA : statusAgrees s)
    (hok : run_auto_sync_engine now s = .ok s2) :
    noAvailConflict s2 := by
  obtain ⟨htr, -, hbk⟩ := engine_ok_shape now s s2 hok
  intro t2 ht2 hact b2 hb2 hbn hav
  rw [htr] at ht2
  obtain ⟨u, hu, hmark⟩ := List.mem_map.mp ht2
  obtain ⟨humem, hukeepb⟩ := List.mem_filter.mp hu
  have hukeep : dropRes now u = false := by simpa using hukeepb
  have hactu : activeTrans u = true := by
    rw [← activeTrans_overdueMark now u, hmark]
    exact hact
  have hbnu : u.book_no = t2.book_no := by
    rw [← hmark, overdueMark_book_no]
  rw [hbk] at hb2
  have hb2B1 : b2 ∈ (sweepReservations now s.books s.transactions).1 :=
    overdue_fst_avail now _ _ b2 hb2 hav
  rcases sweep_fst_avail now s.books s.transactions b2 hb2B1 hav with hin | hdropped
  · have hbst := hA u humem hactu b2 hin (by rw [hbn, ← hbnu])
    rw [hav] at hbst
    unfold activeTrans at hactu
    rw [← hbst] at hactu
    simp at hactu
  · obtain ⟨e, hemem, hedrop, hebn⟩ := hdropped
    have hene : e ≠ u := by
      intro hcon
      rw [hcon, hukeep] at hedrop
      exact Bool.noConfusion hedrop
    refine onePerBook_ne s.transactions hI hemem humem hene
      (activeTrans_of_reserved (strip_of_dropRes hedrop)) hactu ?_
    rw [hebn, hbn, hbnu]

theorem reserveLoop_some (now : DT) (b_no s_id p br : String) (bs : List Book)
    (r : List Book × Trans)
    (h : reserveLoop now b_no s_id p br bs = some r) :
    ∃ b ∈ bs, b.book_no = b_no ∧ b.status = "Available" ∧
      r.2 = mkReservation now b b_no s_id p br := by
  induction bs generalizing r with
  | nil => exact absurd h (by simp [reserveLoop])
  | cons b0 rest ih =>
    unfold reserveLoop at h
    by_cases h0 : (b0.book_no == b_no && b0.status == "Available") = true
    · rw [if_pos h0] at h
      obtain ⟨h1, h2⟩ := (Bool.and_eq_true _ _).mp h0
      refine ⟨b0, List.mem_cons_self b0 rest, eq_of_beq h1, eq_of_beq h2, ?_⟩
      have := congrArg Prod.snd (Option.some.inj h)
      exact this.symm
    · rw [if_neg h0] at h
      match hrec : reserveLoop now b_no s_id p br rest with
      | none => rw [hrec] at h; exact Option.noConfusion h
      | some r0 =>
        rw [hrec] at h
        simp only [Option.some.injEq] at h
        obtain ⟨b, hb, hbn, hbs, hr⟩ := ih r0 hrec
        refine ⟨b, List.mem_cons_of_mem b0 hb, hbn, hbs, ?_⟩
        rw [← h]
        exact hr

theorem mkReservation_book_no (now : DT) (b : Book)
    (b_no s_id p br : String) :
    (mkReservation now b b_no s_id p br).book_no = b_no := rfl

theorem mkReservation_status (now : DT) (b : Book) (b_no s_id p br : String) :
    (mkReservation now b b_no s_id p br).status = "Reserved" := rfl

theorem mem_updateFirstRes (now : DT) (bn sid rd : String) (ts : List Trans)
    (u2 : Trans) (h : u2 ∈ updateFirstReservation now bn sid rd ts) :
    ∃ u ∈ ts, u2 = u ∨ (u2 = borrowedTransUpdate now rd u ∧
      (u.book_no == bn && u.school_id == sid && u.status == "Reserved") = true) := by
  induction ts with
  | nil => cases h
  | cons t rest ih =>
    unfold updateFirstReservation at h
    by_cases h0 : (t.book_no == bn && t.school_id == sid &&
        t.status == "Reserved") = true
    · rw [if_pos h0] at h
      rcases List.mem_cons.mp h with rfl | hrest
      · exact ⟨t, List.mem_cons_self t rest, Or.inr ⟨rfl, h0⟩⟩
      · exact ⟨u2, List.mem_cons_of_mem t hrest, Or.inl rfl⟩
    · rw [if_neg h0] at h
      rcases List.mem_cons.mp h with rfl | hrest
      · exact ⟨u2, List.mem_cons_self u2 rest, Or.inl rfl⟩
      · obtain ⟨u, hu, hor⟩ := ih hrest
        exact ⟨u, List.mem_cons_of_mem t hu, hor⟩

theorem borrowedTransUpdate_book_no (now : DT) (rd : String) (t : Trans) :
    (borrowedTransUpdate now rd t).book_no = t.book_no := rfl

theorem borrowedTransUpdate_active (now : DT) (rd : String) (t : Trans) :
    activeTrans (borrowedTransUpdate now rd t) = true := by
  show (pyStrip "Borrowed" == "Reserved" || pyStrip "Borrowed" == "Borrowed" ||
    pyStrip "Borrowed" == "Unreturned") = true
  decide

theorem onePerBook_updateFirstRes (now : DT) (bn sid rd : String)
    (ts : List Trans) (hI : onePerBook ts) :
    onePerBook (updateFirstReservation now bn sid rd ts) := by
  induction ts with
  | nil => exact hI
  | cons t rest ih =>
    unfold onePerBook at hI
    rw [List.pairwise_cons] at hI
    obtain ⟨hrel, hrest⟩ := hI
    unfold updateFirstReservation
    by_cases h0 : (t.book_no == bn && t.school_id == sid &&
        t.status == "Reserved") = true
    · rw [if_pos h0]
      unfold onePerBook
      rw [List.pairwise_cons]
      refine ⟨?_, hrest⟩
      intro u hu hact1 hact2
      rw [borrowedTransUpdate_book_no]
      have hts : t.status = "Reserved" :=
        eq_of_beq ((Bool.and_eq_true _ _).mp h0).2
      have hta : activeTrans t = true := by
        unfold activeTrans
        rw [hts]
        decide
      exact hrel u hu hta hact2
    · rw [if_neg h0]
      unfold onePerBook
      rw [List.pairwise_cons]
      refine ⟨?_, ih hrest⟩
      intro u2 hu2 hact1 hact2
      obtain ⟨u, hu, hor⟩ := mem_updateFirstRes now bn sid rd rest u2 hu2
      rcases hor with hequ | ⟨hequ, hpred⟩
      · subst hequ
        exact hrel u2 hu hact1 hact2
      · subst hequ
        rw [borrowedTransUpdate_book_no]
        have hus : u.status = "Reserved" :=
          eq_of_beq ((Bool.and_eq_true _ _).mp hpred).2
        have hua : activeTrans u = true := by
          unfold activeTrans
          rw [hus]
          decide
        exact hrel u hu hact1 hua

/-- C3: from any state satisfying the §3 invariants — at most one
non-terminal (Reserved/Borrowed/Unreturned) Transaction per `book_no`, and
every Book's status agreeing with its active Transaction — each core
operation (reconcile, reserve, borrow, return) preserves the at-most-one
active Transaction per `book_no` invariant. -/
theorem C3_invariant_preservation (s : LState)
    (hI : onePerBook s.transactions) (hA : statusAgrees s) :
    (∀ now s2, run_auto_sync_engine now s = .ok s2 →
      onePerBook s2.transactions) ∧
    (∀ nowS now b_no sid pick bor res s2,
      api_reserve nowS now b_no sid pick bor s = .ok (res, s2) →
      onePerBook s2.transactions) ∧
    (∀ now b_no sid rd res s2,
      api_process_borrow now b_no sid rd s = (res, s2) →
      onePerBook s2.transactions) ∧
    (∀ now b_no, onePerBook (api_process_return now b_no s).transactions) := by
  refine ⟨?_, ?_, ?_, ?_⟩
  · intro now s2 hok
    exact engine_preserves_onePerBook now s s2 hI hok
  · intro nowS now b_no sid pick bor res s2 hok
    unfold api_reserve at hok
    match hE : run_auto_sync_engine nowS s with
    | .error e =>
      simp only [hE] at hok
      exact Except.noConfusion hok
    | .ok s1 =>
      simp only [hE] at hok
      have hI1 := engine_preserves_onePerBook nowS s s1 hI hE
      have hW := engine_preserves_noAvail nowS s s1 hI hA hE
      by_cases hdup : (s1.transactions.filter (fun t =>
          t.school_id == normId sid && t.status == "Reserved")).any
          (fun t => t.book_no == b_no) = true
      · rw [if_pos hdup] at hok
        simp only [Except.ok.injEq, Prod.mk.injEq] at hok
        rw [← hok.2]
        exact hI1
      · rw [if_neg hdup] at hok
        by_cases hq : 5 ≤ (s1.transactions.filter (fun t =>
            t.school_id == normId sid && t.status == "Reserved")).length
        · rw [if_pos hq] at hok
          simp only [Except.ok.injEq, Prod.mk.injEq] at hok
          rw [← hok.2]
          exact hI1
        · rw [if_neg hq] at hok
          match hL : reserveLoop now b_no (normId sid) pick bor s1.books with
          | some r =>
            simp only [hL, Except.ok.injEq, Prod.mk.injEq] at hok
            rw [← hok.2]
            show onePerBook (s1.transactions ++ [r.2])
            obtain ⟨b, hbmem, hbbn, hbav, hr2⟩ :=
              reserveLoop_some now b_no (normId sid) pick bor s1.books r hL
            unfold onePerBook
            rw [List.pairwise_append]
            refine ⟨hI1, List.pairwise_singleton _ _, ?_⟩
            intro a ha x hx
            rw [List.mem_singleton] at hx
            subst hx
            intro hacta hactx
            rw [hr2, mkReservation_book_no]
            intro hcon
            refine hW a ha hacta b hbmem ?_ hbav
            rw [hbbn]
            exact hcon.symm
          | none =>
            simp only [hL, Except.ok.injEq, Prod.mk.injEq] at hok
            rw [← hok.2]
            exact hI1
  · intro now b_no sid rd res s2 hok
    unfold api_process_borrow at hok
    by_cases hrd : (pyStrip rd == "") = true
    · rw [if_pos hrd] at hok
      simp only [Prod.mk.injEq] at hok
      rw [← hok.2]
      exact hI
    · rw [if_neg hrd] at hok
      match hP : parseFmtDate (pyStrip rd) with
      | none =>
        simp only [hP, Prod.mk.injEq] at hok
        rw [← hok.2]
        exact hI
      | some d =>
        simp only [hP] at hok
        match hB : s.books.find? (fun b => b.book_no == b_no),
              hT : s.transactions.find? (fun t => t.book_no == b_no &&
                t.school_id == normId sid && t.status == "Reserved") with
        | some bk, some tr =>
          simp only [hB, hT] at hok
          by_cases hst : (bk.status == "Reserved") = true
          · rw [if_pos hst] at hok
            simp only [Prod.mk.injEq] at hok
            rw [← hok.2]
            exact onePerBook_updateFirstRes now b_no (normId sid)
              (pyStrip rd) s.transactions hI
          · rw [if_neg hst] at hok
            simp only [Prod.mk.injEq] at hok
            rw [← hok.2]
            exact hI
        | some bk, none =>
          simp only [hB, hT, Prod.mk.injEq] at hok
          rw [← hok.2]
          exact hI
        | none, some tr =>
          simp only [hB, hT, Prod.mk.injEq] at hok
          rw [← hok.2]
          exact hI
        | none, none =>
          simp only [hB, hT, Prod.mk.injEq] at hok
          rw [← hok.2]
          exact hI
  · intro now b_no
    show onePerBook (s.transactions.map _)
    refine List.Pairwise.map _ ?_ hI
    intro a b hab ha hb
    have hbk : ∀ t : Trans,
        ((if t.book_no == b_no && (t.status == "Reserved" ||
            t.status == "Borrowed" || t.status == "Unreturned") then
          { t with status := "Returned", return_date := some (fmtMinute now) }
        else t) : Trans).book_no = t.book_no := by
      intro t
      split <;> rfl
    have hact : ∀ t : Trans,
        activeTrans ((if t.book_no == b_no && (t.status == "Reserved" ||
            t.status == "Borrowed" || t.status == "Unreturned") then
          { t with status := "Returned", return_date := some (fmtMinute now) }
        else t) : Trans) = true → activeTrans t = true := by
      intro t h
      by_cases hc : (t.book_no == b_no && (t.status == "Reserved" ||
          t.status == "Borrowed" || t.status == "Unreturned")) = true
      · rw [if_pos hc] at h
        have hfalse :
            activeTrans
              ({ t with
                  status := "Returned"
                  return_date := some (fmtMinute now) } : Trans) = false := by
          show (pyStrip "Returned" == "Reserved" ||
            pyStrip "Returned" == "Borrowed" ||
            pyStrip "Returned" == "Unreturned") = false
          decide
        rw [hfalse] at h
        exact Bool.noConfusion h
      · rw [if_neg hc] at h
        exact h
    rw [hbk a, hbk b]
    exact hab (hact a ha) (hact b hb)

/-- Reservation used by the C3 witness (not yet expired at `wNow`). -/
def c3t : Trans :=
  { book_no := "B1"
    school_id := "al"
    status := "Reserved"
    reservation_expiry := some "2025-06-15 13:00:00" }

/-- C3 witness starting state: one reserved book with its reservation, one
available book. -/
def c3s : LState :=
  ⟨[⟨"B1", "T1", "Reserved"⟩, ⟨"B2", "T2", "Available"⟩], [c3t], []⟩

/-- State after the C3 witness borrow of B1 by its reserver. -/
def c3sBorrowed : LState :=
  ⟨[⟨"B1", "T1", "Borrowed"⟩, ⟨"B2", "T2", "Available"⟩],
   [{ book_no := "B1"
      school_id := "al"
      status := "Borrowed"
      date := some "2025-06-15 12:00"
      return_date := some "2025-07-01"
      borrow_date := some "2025-06-15 12:00" }], []⟩

/-- C3 witness: the invariant-preservation theorem applied on a concrete
state to a duplicate-rejected reserve, a successful borrow, and a return. -/
theorem C3_invariant_preservation_witness :
    onePerBook c3s.transactions ∧
    onePerBook c3sBorrowed.transactions ∧
    onePerBook (api_process_return wNow "B1" c3s).transactions := by
  have h := C3_invariant_preservation c3s (by decide) (by decide)
  exact ⟨h.2.1 wNow wNow "B1" "al" "" "" ReserveResult.duplicateReservation c3s
      (by decide),
    h.2.2.1 wNow "B1" "al" "2025-07-01" BorrowResult.success c3sBorrowed
      (by decide),
    h.2.2.2 wNow "B1"⟩

/-- C6: after the initial reconcile pass (producing `s1`), `api_reserve`
rejects with the duplicate-reservation error when the member already holds an
active Reserved transaction for this `book_no`, and otherwise with the quota
error when the member holds five or more active Reserved transactions
system-wide; both guards run strictly before the availability scan (the book
list is never consulted, so the rejections hold even when the target book is
Available), and the rejected call returns exactly the reconciled state `s1`
— nothing beyond the reconcile pass is changed. -/
theorem C6_reserve_guards (nowS now : DT) (b_no sid pick bor : String)
    (s s1 : LState) (hok : run_auto_sync_engine nowS s = .ok s1) :
    ((s1.transactions.filter (fun t => t.school_id == normId sid &&
        t.status == "Reserved")).any (fun t => t.book_no == b_no) = true →
      api_reserve nowS now b_no sid pick bor s =
        .ok (.duplicateReservation, s1)) ∧
    ((s1.transactions.filter (fun t => t.school_id == normId sid &&
        t.status == "Reserved")).any (fun t => t.book_no == b_no) = false →
      5 ≤ (s1.transactions.filter (fun t => t.school_id == normId sid &&
        t.status == "Reserved")).length →
      api_reserve nowS now b_no sid pick bor s = .ok (.quotaExceeded, s1)) := by
  constructor
  · intro hdup
    unfold api_reserve
    simp only [hok]
    rw [if_pos hdup]
  · intro hdup hq
    unfold api_reserve
    simp only [hok]
    rw [if_neg (by simp [hdup]), if_pos hq]

/-- Five active reservations held by member `al` (none expired: no expiry
fields at all), plus an Available copy of the target book. -/
def c6s : LState :=
  ⟨[⟨"B6", "T", "Available"⟩],
   [{ book_no := "R1", school_id := "al", status := "Reserved" },
    { book_no := "R2", school_id := "al", status := "Reserved" },
    { book_no := "R3", school_id := "al", status := "Reserved" },
    { book_no := "R4", school_id := "al", status := "Reserved" },
    { book_no := "R5", school_id := "al", status := "Reserved" }], []⟩

/-- C6 witness: on the concrete state, a sixth reservation attempt against an
Available book is rejected with the quota error, and an attempt on an
already-reserved `book_no` is rejected as a duplicate; both leave the
reconciled state untouched. -/
theorem C6_reserve_guards_witness :
    api_reserve wNow wNow "B6" "al" "" "" c6s =
      .ok (.quotaExceeded, c6s) ∧
    api_reserve wNow wNow "R1" "al" "" "" c6s =
      .ok (.duplicateReservation, c6s) := by
  have h1 := C6_reserve_guards wNow wNow "B6" "al" "" "" c6s c6s (by decide)
  have h2 := C6_reserve_guards wNow wNow "R1" "al" "" "" c6s c6s (by decide)
  exact ⟨h1.2 (by decide) (by decide), h2.1 (by decide)⟩

theorem updateFirstRes_mem_of_find (now : DT) (bn sid rd : String)
    (ts : List Trans) (tr : Trans)
    (h : ts.find? (fun t => t.book_no == bn && t.school_id == sid &&
      t.status == "Reserved") = some tr) :
    borrowedTransUpdate now rd tr ∈ updateFirstReservation now bn sid rd ts := by
  induction ts with
  | nil => exact absurd h (by simp)
  | cons t rest ih =>
    rw [List.find?_cons] at h
    by_cases h0 : (t.book_no == bn && t.school_id == sid &&
        t.status == "Reserved") = true
    · simp only [h0, Option.some.injEq] at h
      subst h
      unfold updateFirstReservation
      rw [if_pos h0]
      exact List.mem_cons_self _ _
    · have h0f : (t.book_no == bn && t.school_id == sid &&
          t.status == "Reserved") = false := by simpa using h0
      simp only [h0f] at h
      unfold updateFirstReservation
      rw [if_neg h0]
      exact List.mem_cons_of_mem t (ih h)

theorem setFirstBookBorrowed_mem_of_find (bn : String) (bs : List Book)
    (bk : Book) (h : bs.find? (fun b => b.book_no == bn) = some bk) :
    { bk with status := "Borrowed" } ∈ setFirstBookBorrowed bn bs := by
  induction bs with
  | nil => exact absurd h (by simp)
  | cons b0 rest ih =>
    rw [List.find?_cons] at h
    by_cases h0 : (b0.book_no == bn) = true
    · simp only [h0, Option.some.injEq] at h
      subst h
      unfold setFirstBookBorrowed
      rw [if_pos h0]
      exact List.mem_cons_self _ _
    · have h0f : (b0.book_no == bn) = false := by simpa using h0
      simp only [h0f] at h
      unfold setFirstBookBorrowed
      rw [if_neg h0]
      exact List.mem_cons_of_mem b0 (ih h)

/-- C7: the borrow branch of `api_process_trans`.  A missing `return_date`
(after stripping) or one that does not parse as a bare `%Y-%m-%d` date is
rejected with the state unchanged; with a parsed date, the call is rejected
(state unchanged) unless a Transaction for the exact `(book_no, school_id)`
pair with status `Reserved` exists and the first book with that `book_no`
has status `Reserved` — in particular an Available book with no active
reservation cannot be borrowed; on success the reservation becomes
`Borrowed` with `borrow_date = now`, `return_date` the supplied due date and
the reservation-only fields cleared, and the book becomes `Borrowed`. -/
theorem C7_borrow_requires_reservation (now : DT) (b_no sid rd : String)
    (s : LState) :
    (pyStrip rd = "" →
      api_process_borrow now b_no sid rd s = (.missingDate, s)) ∧
    (pyStrip rd ≠ "" → parseFmtDate (pyStrip rd) = none →
      api_process_borrow now b_no sid rd s = (.invalidDate, s)) ∧
    (∀ d, parseFmtDate (pyStrip rd) = some d →
      (s.transactions.find? (fun t => t.book_no == b_no &&
          t.school_id == normId sid && t.status == "Reserved") = none ∨
        s.books.find? (fun b => b.book_no == b_no) = none ∨
        (∃ bk, s.books.find? (fun b => b.book_no == b_no) = some bk ∧
          bk.status ≠ "Reserved")) →
      api_process_borrow now b_no sid rd s = (.notReserved, s)) ∧
    (∀ d bk tr, parseFmtDate (pyStrip rd) = some d →
      s.books.find? (fun b => b.book_no == b_no) = some bk →
      bk.status = "Reserved" →
      s.transactions.find? (fun t => t.book_no == b_no &&
        t.school_id == normId sid && t.status == "Reserved") = some tr →
      api_process_borrow now b_no sid rd s =
        (.success,
         ⟨setFirstBookBorrowed b_no s.books,
          updateFirstReservation now b_no (normId sid) (pyStrip rd)
            s.transactions,
          s.tickets⟩) ∧
      borrowedTransUpdate now (pyStrip rd) tr ∈
        updateFirstReservation now b_no (normId sid) (pyStrip rd)
          s.transactions ∧
      { bk with status := "Borrowed" } ∈ setFirstBookBorrowed b_no s.books) := by
  have hempty : parseFmtDate "" = none := by decide
  refine ⟨?_, ?_, ?_, ?_⟩
  · intro h
    unfold api_process_borrow
    rw [if_pos (by simp [h])]
  · intro hne hparse
    unfold api_process_borrow
    rw [if_neg (by simpa using hne)]
    simp only [hparse]
  · intro d hparse hbad
    have hne : (pyStrip rd == "") = false := by
      refine beq_eq_false_iff_ne.mpr ?_
      intro hcon
      rw [hcon, hempty] at hparse
      exact Option.noConfusion hparse
    unfold api_process_borrow
    rw [if_neg (by simp [hne])]
    simp only [hparse]
    rcases hbad with hT | hB | ⟨bk, hB, hst⟩
    · match hB2 : s.books.find? (fun b => b.book_no == b_no) with
      | some bk => rw [hB2, hT]
      | none => rw [hB2, hT]
    · match hT2 : s.transactions.find? (fun t => t.book_no == b_no &&
          t.school_id == normId sid && t.status == "Reserved") with
      | some tr => rw [hB, hT2]
      | none => rw [hB, hT2]
    · match hT2 : s.transactions.find? (fun t => t.book_no == b_no &&
          t.school_id == normId sid && t.status == "Reserved") with
      | some tr =>
        rw [hB, hT2]
        simp [hst]
      | none => rw [hB, hT2]
  · intro d bk tr hparse hB hst hT
    have hne : (pyStrip rd == "") = false := by
      refine beq_eq_false_iff_ne.mpr ?_
      intro hcon
      rw [hcon, hempty] at hparse
      exact Option.noConfusion hparse
    refine ⟨?_, updateFirstRes_mem_of_find now b_no (normId sid) (pyStrip rd)
        s.transactions tr hT,
      setFirstBookBorrowed_mem_of_find b_no s.books bk hB⟩
    unfold api_process_borrow
    rw [if_neg (by simp [hne])]
    simp only [hparse, hB, hT]
    rw [if_pos (by simp [hst])]

/-- Reserved book used by the C7 witness. -/
def c7bk : Book := ⟨"B1", "T1", "Reserved"⟩

/-- Active reservation used by the C7 witness. -/
def c7tr : Trans := { book_no := "B1", school_id := "al", status := "Reserved" }

/-- C7 witness starting state: B1 reserved by `al`, B2 available with no
reservation. -/
def c7s : LState := ⟨[c7bk, ⟨"B2", "T2", "Available"⟩], [c7tr], []⟩

/-- C7 witness: a blank due date, an unparsable due date, a borrow attempt
on an Available book with no reservation, and a legitimate conversion of an
active reservation, each with the exact outcome the theorem predicts. -/
theorem C7_borrow_requires_reservation_witness :
    api_process_borrow wNow "B1" "al" "   " c7s = (.missingDate, c7s) ∧
    api_process_borrow wNow "B1" "al" "2025-13-01" c7s = (.invalidDate, c7s) ∧
    api_process_borrow wNow "B2" "bob" "2025-07-01" c7s =
      (.notReserved, c7s) ∧
    (api_process_borrow wNow "B1" "al" "2025-07-01" c7s =
      (.success,
       ⟨setFirstBookBorrowed "B1" c7s.books,
        updateFirstReservation wNow "B1" (normId "al") (pyStrip "2025-07-01")
          c7s.transactions,
        c7s.tickets⟩) ∧
     borrowedTransUpdate wNow (pyStrip "2025-07-01") c7tr ∈
       updateFirstReservation wNow "B1" (normId "al") (pyStrip "2025-07-01")
         c7s.transactions ∧
     { c7bk with status := "Borrowed" } ∈
       setFirstBookBorrowed "B1" c7s.books) :=
  ⟨(C7_borrow_requires_reservation wNow "B1" "al" "   " c7s).1 (by decide),
   (C7_borrow_requires_reservation wNow "B1" "al" "2025-13-01" c7s).2.1
     (by decide) (by decide),
   (C7_borrow_requires_reservation wNow "B2" "bob" "2025-07-01" c7s).2.2.1
     ⟨2025, 7, 1, 0, 0, 0⟩ (by decide) (Or.inl (by decide)),
   (C7_borrow_requires_reservation wNow "B1" "al" "2025-07-01" c7s).2.2.2
     ⟨2025, 7, 1, 0, 0, 0⟩ c7bk c7tr (by decide) (by decide) (by decide)
     (by decide)⟩

/-- C10: `api_finalize_reset` checks only that some ticket matches the
normalized request `school_id` and the request code — never its `status` or
`expiry`.  Whenever a ticket whose expiry has already passed (parsed and
strictly before `now`) is still present, finalization with that ticket's
identity and code succeeds, writes the new password into every user-registry
and admin-registry record of that identity, and deletes every ticket of that
identity (other tickets survive). -/
theorem C10_finalize_ignores_expiry (now : DT) (sid_raw : String)
    (code : Option String) (new_pwd : String) (users admins : List Member)
    (tickets : List Ticket) (tk : Ticket) (htk : tk ∈ tickets)
    (hsid : tk.school_id = normId sid_raw) (hcode : tk.code = code)
    (raw : String) (dt : DT) (hexp : tk.expiry = some raw)
    (hparse : parseFmtSecond raw = some dt) (hpast : DT.ltb dt now = true) :
    (api_finalize_reset sid_raw code new_pwd users admins tickets).1 = true ∧
    (∀ u ∈ (api_finalize_reset sid_raw code new_pwd users admins
        tickets).2.1, u.school_id = normId sid_raw → u.password = new_pwd) ∧
    (∀ a ∈ (api_finalize_reset sid_raw code new_pwd users admins
        tickets).2.2.1, a.school_id = normId sid_raw →
        a.password = new_pwd) ∧
    (∀ t2 ∈ (api_finalize_reset sid_raw code new_pwd users admins
        tickets).2.2.2, t2.school_id ≠ normId sid_raw) ∧
    (∀ t2 ∈ tickets, t2.school_id ≠ normId sid_raw →
      t2 ∈ (api_finalize_reset sid_raw code new_pwd users admins
        tickets).2.2.2) := by
  have hfind : (tickets.find? (fun t => t.school_id == normId sid_raw &&
      t.code == code)).isSome := by
    rw [List.find?_isSome]
    exact ⟨tk, htk, by simp [hsid, hcode]⟩
  match hf : tickets.find? (fun t => t.school_id == normId sid_raw &&
      t.code == code) with
  | none => rw [hf] at hfind; exact Bool.noConfusion hfind
  | some tk0 =>
    unfold api_finalize_reset
    simp only [hf]
    refine ⟨trivial, ?_, ?_, ?_, ?_⟩
    · intro u hu hus
      obtain ⟨u0, hu0, hmap⟩ := List.mem_map.mp hu
      by_cases hc : (u0.school_id == normId sid_raw) = true
      · rw [if_pos hc] at hmap
        rw [← hmap]
      · rw [if_neg hc] at hmap
        subst hmap
        exact absurd hus (by simpa using hc)
    · intro a ha has
      obtain ⟨a0, ha0, hmap⟩ := List.mem_map.mp ha
      by_cases hc : (a0.school_id == normId sid_raw) = true
      · rw [if_pos hc] at hmap
        rw [← hmap]
      · rw [if_neg hc] at hmap
        subst hmap
        exact absurd has (by simpa using hc)
    · intro t2 ht2
      have := (List.mem_filter.mp ht2).2
      simpa using this
    · intro t2 ht2 hne
      exact List.mem_filter.mpr ⟨ht2, by simpa using hne⟩

/-- Member records for the C10 witness: the identity exists in both
registries. -/
def c10users : List Member := [⟨"al", "old1"⟩, ⟨"bob", "pw"⟩]

/-- Admin records for the C10 witness. -/
def c10admins : List Member := [⟨"al", "old2"⟩]

/-- Expired-but-unswept approved ticket plus an unrelated ticket. -/
def c10tickets : List Ticket :=
  [⟨"al", "approved", some "XYZ123", some "2025-06-15 11:00:00"⟩,
   ⟨"bob", "pending", none, some "2025-06-15 12:30:00"⟩]

/-- C10 witness: finalization with the expired ticket's identity and code
(at `wNow`, an hour after the ticket's expiry) succeeds, rewrites both
registries, and removes only that identity's tickets. -/
theorem C10_finalize_ignores_expiry_witness :
    (api_finalize_reset "AL " (some "XYZ123") "newpw" c10users c10admins
      c10tickets).1 = true ∧
    (∀ u ∈ (api_finalize_reset "AL " (some "XYZ123") "newpw" c10users
        c10admins c10tickets).2.1, u.school_id = normId "AL " →
        u.password = "newpw") ∧
    (∀ a ∈ (api_finalize_reset "AL " (some "XYZ123") "newpw" c10users
        c10admins c10tickets).2.2.1, a.school_id = normId "AL " →
        a.password = "newpw") ∧
    (∀ t2 ∈ (api_finalize_reset "AL " (some "XYZ123") "newpw" c10users
        c10admins c10tickets).2.2.2, t2.school_id ≠ normId "AL ") ∧
    (∀ t2 ∈ c10tickets, t2.school_id ≠ normId "AL " →
      t2 ∈ (api_finalize_reset "AL " (some "XYZ123") "newpw" c10users
        c10admins c10tickets).2.2.2) :=
  C10_finalize_ignores_expiry wNow "AL " (some "XYZ123") "newpw" c10users
    c10admins c10tickets
    ⟨"al", "approved", some "XYZ123", some "2025-06-15 11:00:00"⟩
    (by decide) (by decide) (by decide) "2025-06-15 11:00:00"
    ⟨2025, 6, 15, 11, 0, 0⟩ (by decide) (by decide) (by decide)

theorem revert_eq_of_no_match (bn : String) (bs : List Book)
    (h : ∀ b ∈ bs, b.book_no ≠ bn) : revertFirstReservedBook bn bs = bs := by
  induction bs with
  | nil => rfl
  | cons b0 rest ih =>
    unfold revertFirstReservedBook
    have h0 : (b0.book_no == bn) = false := by
      simp [h b0 (List.mem_cons_self b0 rest)]
    simp only [h0, Bool.false_and, Bool.false_eq_true, if_false, ite_false]
    rw [ih (fun b hb => h b (List.mem_cons_of_mem b0 hb))]

theorem mark_eq_of_no_match (bn : String) (bs : List Book)
    (h : ∀ b ∈ bs, b.book_no ≠ bn) : markFirstBookUnreturned bn bs = bs := by
  induction bs with
  | nil => rfl
  | cons b0 rest ih =>
    unfold markFirstBookUnreturned
    have h0 : (b0.book_no == bn) = false := by
      simp [h b0 (List.mem_cons_self b0 rest)]
    simp only [h0, Bool.false_eq_true, if_false, ite_false]
    rw [ih (fun b hb => h b (List.mem_cons_of_mem b0 hb))]

theorem sweep_fst_no_match (now : DT) (bs : List Book) (ts : List Trans)
    (h : ∀ t ∈ ts, ∀ b ∈ bs, b.book_no ≠ t.book_no) :
    (sweepReservations now bs ts).1 = bs := by
  induction ts with
  | nil => rfl
  | cons t rest ih =>
    rw [sweep_cons]
    by_cases hd : dropRes now t = true
    · simp only [hd, if_true, ite_true]
      rw [revert_eq_of_no_match t.book_no bs
        (fun b hb => h t (List.mem_cons_self t rest) b hb)]
      exact ih (fun u hu b hb => h u (List.mem_cons_of_mem t hu) b hb)
    · simp only [hd, if_false, ite_false]
      exact ih (fun u hu b hb => h u (List.mem_cons_of_mem t hu) b hb)

theorem overdue_fst_no_match (now : DT) (bs : List Book) (ts : List Trans)
    (h : ∀ t ∈ ts, ∀ b ∈ bs, b.book_no ≠ t.book_no) :
    (overduePass now bs ts).1 = bs := by
  induction ts with
  | nil => rfl
  | cons t rest ih =>
    rw [overdue_cons]
    by_cases hd : overdueTriggered now t = true
    · simp only [hd, if_true, ite_true]
      rw [mark_eq_of_no_match t.book_no bs
        (fun b hb => h t (List.mem_cons_self t rest) b hb)]
      exact ih (fun u hu b hb => h u (List.mem_cons_of_mem t hu) b hb)
    · simp only [hd, if_false, ite_false]
      exact ih (fun u hu b hb => h u (List.mem_cons_of_mem t hu) b hb)

/-- Expired reservation whose `book_no` differs from the stored book's only
in letter case. -/
def c8t : Trans :=
  { book_no := "b1"
    school_id := "al"
    status := "Reserved"
    reservation_expiry := some "2025-06-15 11:00:00" }

/-- C8 state: book `"B1"` reserved, expired reservation recorded as `"b1"`. -/
def c8s : LState := ⟨[⟨"B1", "T", "Reserved"⟩], [c8t], []⟩

/-- C8 counterexample: the reconciliation engine compares `book_no` by exact
string equality, not case-insensitively.  The expired reservation for
`"b1"` is swept, but the book stored as `"B1"` — the same identifier up to
letter case, which the claim says every comparison treats as equal — stays
`"Reserved"` instead of reverting to `"Available"`. -/
theorem C8_counterexample_case_sensitive_book_match :
    run_auto_sync_engine wNow c8s =
      .ok ⟨[⟨"B1", "T", "Reserved"⟩], [], []⟩ := by
  decide

/-- C8 (amended): only identifiers taken from the incoming request are
normalized — `school_id` is stripped and lower-cased before any comparison,
so two requests whose `school_id` differ only in case or surrounding
whitespace behave identically — while the state machine and reconciliation
engine compare stored `book_no` (and stored `school_id`) by exact string
equality: books whose `book_no` differs from every transaction's `book_no`
as an exact string are never touched by reconcile, even when they match
case-insensitively. -/
theorem C8_amended_exact_and_normalized_matching :
    (∀ now s s2,
      (∀ t ∈ s.transactions, ∀ b ∈ s.books, b.book_no ≠ t.book_no) →
      run_auto_sync_engine now s = .ok s2 → s2.books = s.books) ∧
    (∀ nowS now b_no sid sid2 pick bor s, normId sid = normId sid2 →
      api_reserve nowS now b_no sid pick bor s =
        api_reserve nowS now b_no sid2 pick bor s) ∧
    (∀ now b_no sid sid2 rd s, normId sid = normId sid2 →
      api_process_borrow now b_no sid rd s =
        api_process_borrow now b_no sid2 rd s) := by
  refine ⟨?_, ?_, ?_⟩
  · intro now s s2 h hok
    obtain ⟨-, -, hbk⟩ := engine_ok_shape now s s2 hok
    rw [hbk, sweep_snd]
    rw [sweep_fst_no_match now s.books s.transactions
      (fun t ht b hb => h t ht b hb)]
    rw [overdue_fst_no_match now s.books _ ?_]
    intro t ht b hb
    exact h t (List.mem_filter.mp ht).1 b hb
  · intro nowS now b_no sid sid2 pick bor s h
    unfold api_reserve
    rw [h]
  · intro now b_no sid sid2 rd s h
    unfold api_process_borrow
    rw [h]

/-- C8 witness: the books survive reconcile untouched when no exact
`book_no` match exists (the case-different pair of the counterexample), and
request `school_id`s `"  ALice "` and `"alice"` drive `api_reserve` and the
borrow branch identically. -/
theorem C8_amended_witness :
    ((⟨[⟨"B1", "T", "Reserved"⟩], [], []⟩ : LState).books = c8s.books) ∧
    api_reserve wNow wNow "B1" "  ALice " "" "" c8s =
      api_reserve wNow wNow "B1" "alice" "" "" c8s ∧
    api_process_borrow wNow "B1" "  ALice " "2025-07-01" c8s =
      api_process_borrow wNow "B1" "alice" "2025-07-01" c8s :=
  ⟨C8_amended_exact_and_normalized_matching.1 wNow c8s
      ⟨[⟨"B1", "T", "Reserved"⟩], [], []⟩ (by decide) (by decide),
   C8_amended_exact_and_normalized_matching.2.1 wNow wNow "B1" "  ALice "
      "alice" "" "" c8s (by decide),
   C8_amended_exact_and_normalized_matching.2.2 wNow "B1" "  ALice " "alice"
      "2025-07-01" c8s (by decide)⟩

/-- Modelled from the spec claim for refutation comparison only: the
top-books aggregation as C9 words it, grouping the month's Borrowed/Returned
transactions by case-insensitive `book_no`, counting each group, sorting by
count descending then case-insensitive `book_no` ascending, taking the top
`limit`, and resolving each title from the Book collection with fallback to
the raw `book_no`. -/
def topBooksCI (now : DT) (books : List Book) (txs : List Trans)
    (limit : Nat) : List TopBookRow :=
  let rows := (mtRows now txs).filter (fun mt => !(pyStrip mt.book_no == ""))
  let keys := dedupFirst (rows.map (fun mt => pyLower mt.book_no))
  let counted := keys.map
    (fun k => (k, rows.countP (fun mt => pyLower mt.book_no == k)))
  let sorted := sortByLe
    (fun a b => if a.2 == b.2 then strLeb a.1 b.1 else decide (b.2 < a.2))
    counted
  ((sorted.take limit).enum).map (fun p =>
    let rawbn := ((rows.find? (fun mt => pyLower mt.book_no == p.2.1)).map
      MTRow.book_no).getD p.2.1
    let title :=
      match books.find? (fun b => pyLower (pyStrip b.book_no) == p.2.1) with
      | some b => if pyStrip b.title == "" then rawbn else pyStrip b.title
      | none => rawbn
    ⟨p.1 + 1, rawbn, title, p.2.2⟩)

/-- Transactions whose `book_no` differ only in case, both engaged this
month. -/
def c9txs : List Trans :=
  [{ book_no := "B1", school_id := "al", status := "Borrowed",
     date := some "2025-06-10 10:00" },
   { book_no := "b1", school_id := "bob", status := "Borrowed",
     date := some "2025-06-11 10:00" }]

/-- C9 counterexample: the implemented top-books query groups by exact
`book_no` (`GROUP BY mt.book_no, title` — only the title join is
case-insensitive), so `"B1"` and `"b1"` form two rows of one transaction
each, where the claimed case-insensitive grouping would produce a single
group of two. -/
theorem C9_counterexample_case_sensitive_grouping :
    topBooks wNow [] c9txs 10 ≠ topBooksCI wNow [] c9txs 10 := by
  decide

/-- Title resolution of the top-books query for one grouping key: the first
book whose lower-cased trimmed `book_no` matches case-insensitively, its
trimmed title, with fallback to the transaction's `book_no` when no book
matches or the matched title is empty (`COALESCE(NULLIF(b.title, ''),
mt.book_no)` over the `LOWER(...)` join). -/
def specTitle (books : List Book) (bn : String) : String :=
  match (bookRows books).find?
      (fun b => pyLower b.book_no == pyLower bn) with
  | some b => if b.title == "" then bn else b.title
  | none => bn

/-- Exact grouping key of the implemented query: the (trimmed) `book_no`
together with its resolved title. -/
def specKey (books : List Book) (mt : MTRow) : String × String :=
  (mt.book_no, specTitle books mt.book_no)

/-- Declarative form of the implemented top-books query (C9 as amended):
filter the month's Borrowed/Returned transactions to non-empty `book_no`,
group by the exact `(book_no, resolved title)` key, count with `countP`,
sort by count descending then case-insensitive `book_no` ascending, take the
top `limit` and rank. -/
def topBooksSpecExact (now : DT) (books : List Book) (txs : List Trans)
    (limit : Nat) : List TopBookRow :=
  (((sortByLe rowLe
      ((dedupFirst (((mtRows now txs).filter
          (fun mt => !(pyStrip mt.book_no == ""))).map (specKey books))).map
        (fun k => (k, ((mtRows now txs).filter
          (fun mt => !(pyStrip mt.book_no == ""))).countP
            (fun mt => specKey books mt == k))))).take limit).enum).map
    (fun p => ⟨p.1 + 1, p.2.1.1, p.2.1.2, p.2.2⟩)

theorem filter_key_eq_find (brs : List BookRow) (k : String)
    (hU : (brs.map (fun b => pyLower b.book_no)).Nodup) :
    brs.filter (fun b => pyLower b.book_no == k) =
      (brs.find? (fun b => pyLower b.book_no == k)).toList := by
  induction brs with
  | nil => rfl
  | cons b0 rest ih =>
    rw [List.map_cons, List.nodup_cons] at hU
    obtain ⟨hnotin, hUrest⟩ := hU
    rw [List.filter_cons, List.find?_cons]
    by_cases h0 : (pyLower b0.book_no == k) = true
    · simp only [h0, if_true, ite_true]
      have hrest : rest.filter (fun b => pyLower b.book_no == k) = [] := by
        rw [List.filter_eq_nil_iff]
        intro b hb hcon
        refine hnotin ?_
        have hk : pyLower b.book_no = k := eq_of_beq hcon
        rw [eq_of_beq h0, ← hk]
        exact List.mem_map_of_mem (fun b => pyLower b.book_no) hb
      rw [hrest]
      rfl
    · have h0f : (pyLower b0.book_no == k) = false := by simpa using h0
      simp only [h0f, if_false, ite_false, Bool.false_eq_true]
      exact ih hUrest

theorem joinRow_eq_find (brs : List BookRow) (mt : MTRow)
    (hU : (brs.map (fun b => pyLower b.book_no)).Nodup) :
    joinRow brs mt =
      [(mt, brs.find? (fun b => pyLower b.book_no == pyLower mt.book_no))] := by
  unfold joinRow
  rw [filter_key_eq_find brs (pyLower mt.book_no) hU]
  match hf : brs.find? (fun b => pyLower b.book_no == pyLower mt.book_no) with
  | none =>
    rw [hf]
    rfl
  | some b =>
    rw [hf]
    rfl

theorem joinedRows_eq_map (brs : List BookRow) (mts : List MTRow)
    (hU : (brs.map (fun b => pyLower b.book_no)).Nodup) :
    joinedRows brs mts = mts.map (fun mt =>
      (mt, brs.find? (fun b => pyLower b.book_no == pyLower mt.book_no))) := by
  unfold joinedRows
  induction mts with
  | nil => rfl
  | cons mt rest ih =>
    rw [List.map_cons, List.map_cons, List.flatten_cons,
      joinRow_eq_find brs mt hU, ih]
    rfl

theorem mtRows_props (now : DT) (txs : List Trans) (mt : MTRow)
    (hmt : mt ∈ mtRows now txs) :
    (mt.status == "borrowed" || mt.status == "returned") = true ∧
    mt.tdate.month = now.month ∧ mt.tdate.year = now.year := by
  unfold mtRows at hmt
  obtain ⟨tx, htx, hf⟩ := List.mem_filterMap.mp hmt
  unfold current_month_borrowed_transactions at htx
  obtain ⟨-, hpred⟩ := List.mem_filter.mp htx
  match hd : extract_transaction_date tx with
  | none =>
    rw [hd] at hpred
    exact absurd hpred (by simp)
  | some d =>
    rw [hd] at hpred hf
    simp only [Option.some.injEq] at hf
    subst hf
    simp only [Bool.and_eq_true, Bool.or_eq_true] at hpred
    obtain ⟨⟨hy, hm⟩, hst⟩ := hpred
    refine ⟨?_, eq_of_beq hm, eq_of_beq hy⟩
    show (pyLower (pyStrip tx.status) == "borrowed" ||
      pyLower (pyStrip tx.status) == "returned") = true
    rcases hst with h1 | h1 <;> simp [eq_of_beq h1]

/-- C9 (amended): under the data model's one-book-per-`book_no` assumption
(here: pairwise distinct case-folded trimmed `book_no`s), the implemented
top-books query equals the declarative exact-grouping description — group by
exact `(book_no, resolved title)` with the case-insensitive title join,
count, sort by count descending then case-insensitive `book_no` ascending,
truncate, rank. -/
theorem C9_top_books_exact_grouping (now : DT) (books : List Book)
    (txs : List Trans) (limit : Nat)
    (hU : ((bookRows books).map (fun b => pyLower b.book_no)).Nodup) :
    topBooks now books txs limit = topBooksSpecExact now books txs limit := by
  unfold topBooks topBooksSpecExact
  rw [joinedRows_eq_map (bookRows books) (mtRows now txs) hU]
  rw [List.filter_map]
  have hwhere : (mtRows now txs).filter ((whereOk now) ∘ (fun mt =>
      (mt, (bookRows books).find?
        (fun b => pyLower b.book_no == pyLower mt.book_no)))) =
      (mtRows now txs).filter (fun mt => !(pyStrip mt.book_no == "")) := by
    refine List.filter_congr ?_
    intro mt hmt
    obtain ⟨hst, hm, hy⟩ := mtRows_props now txs mt hmt
    show whereOk now (mt, _) = _
    unfold whereOk
    simp only [hst, hm, hy]
    simp
  rw [hwhere]
  set rows := (mtRows now txs).filter (fun mt => !(pyStrip mt.book_no == ""))
    with hrows
  have hkey : ∀ mt : MTRow, rowKey (mt, (bookRows books).find?
      (fun b => pyLower b.book_no == pyLower mt.book_no)) =
      specKey books mt := by
    intro mt
    rfl
  have hgc : groupCounts (rows.map (fun mt =>
      (mt, (bookRows books).find?
        (fun b => pyLower b.book_no == pyLower mt.book_no)))) =
      (dedupFirst (rows.map (specKey books))).map
        (fun k => (k, rows.countP (fun mt => specKey books mt == k))) := by
    unfold groupCounts
    rw [List.map_map]
    have h1 : (rowKey ∘ fun mt => (mt, (bookRows books).find?
        (fun b => pyLower b.book_no == pyLower mt.book_no))) =
        specKey books := by
      funext mt
      exact hkey mt
    rw [h1]
    refine List.map_congr_left ?_
    intro k hk
    refine congrArg (fun n => (k, n)) ?_
    rw [List.countP_map]
    refine List.countP_congr ?_
    intro mt hmt
    show ((rowKey (mt, _) == k) = true) ↔ _
    rw [hkey mt]
  rw [hgc]

/-- Books for the C9 amended-theorem witness. -/
def c9books : List Book := [⟨"B1", "Title One", "Available"⟩]

/-- C9 amended witness: the implemented query and the exact-grouping
description agree on a concrete month of transactions (including a
case-variant `book_no` pair) against a single-book collection. -/
theorem C9_top_books_exact_grouping_witness :
    topBooks wNow c9books c9txs 10 = topBooksSpecExact wNow c9books c9txs 10 :=
  C9_top_books_exact_grouping wNow c9books c9txs 10 (by decide)

/-- C1: calling `reconcile()` (`run_auto_sync_engine`) twice in immediate
succession (same `now`, no intervening time passage) yields after the second
call exactly the state the first call produced: for every starting state of
the Book/Transaction/Ticket collections, sequencing a second engine run after
the first is the same as running it once.  (When the first run raises, the
second raises identically and no collection was persisted by either.) -/
theorem C1_reconcile_idempotent (now : DT) (s : LState) :
    (run_auto_sync_engine now s).bind (run_auto_sync_engine now) =
      run_auto_sync_engine now s := by
  cases h : run_auto_sync_engine now s with
  | error e => rfl
  | ok s2 =>
    show run_auto_sync_engine now s2 = Except.ok s2
    exact engine_ok_fixed now s s2 h

/-- C2 counterexample: a single ticket whose `expiry` does not parse as
`"%Y-%m-%d %H:%M:%S"` makes the whole reconciliation raise (`ValueError`
from the unguarded `strptime` at the ticket sweep), so `reconcile()` does
not complete over the collections — contradicting the claim that one bad
record never aborts reconciliation of the rest. -/
theorem C2_counterexample_bad_ticket_aborts :
    run_auto_sync_engine ⟨2025, 6, 15, 12, 0, 0⟩
      ⟨[⟨"B1", "T", "Borrowed"⟩],
       [{ book_no := "B1", school_id := "bob", status := "Borrowed",
          return_date := some "2025-06-10" }],
       [⟨"alice", "pending", none, some "not-a-date"⟩]⟩ = .error () := by
  decide

/-- C2 (amended): parse tolerance holds on the Transaction side — a
Transaction with an absent or unparsable date is simply treated as not yet
expired / not overdue and reconciliation continues — but the Ticket sweep is
not tolerant: `reconcile()` completes (for every Book/Transaction content,
including bad transaction dates) exactly when every Ticket's `expiry` field
is present and parses as `"%Y-%m-%d %H:%M:%S"`; a single bad Ticket aborts
the whole run with nothing persisted. -/
theorem C2_amended_total_when_tickets_parse (now : DT) (s : LState)
    (h : ∀ t ∈ s.tickets, ticketExpiryParses t = true) :
    ∃ s2, run_auto_sync_engine now s = .ok s2 := by
  obtain ⟨out, hout⟩ := sweepTickets_isOk now s.tickets h
  refine ⟨⟨(overduePass now (sweepReservations now s.books s.transactions).1
    ((sweepReservations now s.books s.transactions).2)).1,
    (overduePass now (sweepReservations now s.books s.transactions).1
      ((sweepReservations now s.books s.transactions).2)).2, out⟩, ?_⟩
  unfold run_auto_sync_engine
  simp only [hout]

/-- C2 witness: a state whose transactions all carry garbage or missing
dates and whose single ticket parses, on which the amended theorem applies
and reconciliation completes. -/
theorem C2_amended_witness :
    ∃ s2, run_auto_sync_engine ⟨2025, 6, 15, 12, 0, 0⟩
      ⟨[⟨"B1", "T", "Reserved"⟩],
       [{ book_no := "B1", school_id := "bob", status := "Reserved",
          reservation_expiry := some "junk" },
        { book_no := "B2", school_id := "eve", status := "Borrowed",
          return_date := some "06/10/2025" }],
       [⟨"alice", "pending", none, some "2025-06-15 12:30:00"⟩]⟩ = .ok s2 :=
  C2_amended_total_when_tickets_parse ⟨2025, 6, 15, 12, 0, 0⟩
    ⟨[⟨"B1", "T", "Reserved"⟩],
     [{ book_no := "B1", school_id := "bob", status := "Reserved",
        reservation_expiry := some "junk" },
      { book_no := "B2", school_id := "eve", status := "Borrowed",
        return_date := some "06/10/2025" }],
     [⟨"alice", "pending", none, some "2025-06-15 12:30:00"⟩]⟩ (by decide)

end LBAS
